import Mathlib

/-!
Shallow embedding of the map content pipeline of the rhythia-menu repository:

* the load scheduler and its caches
  (`src/components/composites/renderUtils/mapLoaderService.ts`),
* the ingestion pipeline (`src/utils/maps/add.ts`, `src/utils/maps/online.ts`),
* the playback service
  (`src/components/composites/renderUtils/mapPlayerService.ts`),
* the search engine (`src/components/composites/renderUtils/searchUtils.ts`).

JavaScript numbers are modelled as exact rationals (with explicit NaN and
infinity values where the code can produce them); JavaScript `Map`/`Set`
objects are modelled as total functions with pointwise update; the single
cooperative execution context is modelled by explicit state passing, with
asynchronous fetch completions delivered as explicit events.
-/

namespace Rhythia

/-- Canonical map record, `SoundSpaceMemoryMap` from `utils/types/ssmm.ts`. -/
structure SoundSpaceMemoryMap where
  id : String
  mappers : List String
  title : String
  duration : ℚ
  noteCount : Nat
  difficulty : ℚ
  starRating : ℚ
  onlineStatus : String
  notes : List (ℚ × ℚ × ℚ)
deriving Repr, DecidableEq, Inhabited

/-- Scheduler-internal queue entry, `QueueItem` from `mapLoaderService.ts`. -/
structure QueueItem where
  mapId : String
  isVisible : Bool
  timestamp : Nat
deriving Repr, DecidableEq

/-- `MAX_CONCURRENT_MAP_LOADS` from `mapLoaderService.ts`. -/
def MAX_CONCURRENT_MAP_LOADS : Nat := 1

/-- `MAX_CONCURRENT_IMAGE_LOADS` from `mapLoaderService.ts`. -/
def MAX_CONCURRENT_IMAGE_LOADS : Nat := 1

/-- `MAX_RETRY_ATTEMPTS` from `mapLoaderService.ts`. -/
def MAX_RETRY_ATTEMPTS : Nat := 2

/-- The module-level mutable state of `mapLoaderService.ts`.  The caches map an
id to `none` (never stored), `some none` (the stored `null` failure sentinel)
or `some (some v)`.  Retry maps return `0` for absent keys, mirroring
`retryAttempts.get(id) || 0`.  The `started*Fetches` lists record, in order,
every fetch handed to `loadMapData` / `loadMapImage`; the `advance*` and
`sort*` counters record how many times the process / sort functions were
invoked (pure instrumentation, written by no branch condition). -/
structure LoaderState where
  mapLoadQueue : List QueueItem
  imageLoadQueue : List QueueItem
  mapCache : String → Option (Option SoundSpaceMemoryMap)
  imageCache : String → Option (Option Unit)
  failedMaps : String → Bool
  failedImages : String → Bool
  mapRetryAttempts : String → Nat
  imageRetryAttempts : String → Nat
  currentlyLoadingMaps : Nat
  currentlyLoadingImages : Nat
  startedMapFetches : List String
  startedImageFetches : List String
  advanceMapCount : Nat
  advanceImageCount : Nat
  sortMapCount : Nat
  sortImageCount : Nat

/-- The state at module initialisation: empty queues, empty caches, no
failures, no retries, nothing in flight. -/
def initLoaderState : LoaderState :=
  ⟨[], [], fun _ => none, fun _ => none, fun _ => false, fun _ => false,
    fun _ => 0, fun _ => 0, 0, 0, [], [], 0, 0, 0, 0⟩

/-- The comparator shared by `sortMapLoadQueue` and `sortImageLoadQueue`:
`-1` when only `a` is visible, `1` when only `b` is visible, otherwise
`b.timestamp - a.timestamp`. -/
def queueCmp (a b : QueueItem) : Int :=
  if a.isVisible ≠ b.isVisible then (if a.isVisible then -1 else 1)
  else (b.timestamp : Int) - (a.timestamp : Int)

/-- The "may come before" relation induced by the comparator: `a` may precede
`b` exactly when the comparator is non-positive.  A modern (ES2019+)
`Array.prototype.sort` is a stable sort with respect to this relation, which
`List.insertionSort` implements. -/
def queueLE (a b : QueueItem) : Prop := queueCmp a b ≤ 0

instance : DecidableRel queueLE := fun a b => by
  unfold queueLE
  infer_instance

instance : IsTotal QueueItem queueLE :=
  ⟨by
    intro a b
    unfold queueLE queueCmp
    cases ha : a.isVisible <;> cases hb : b.isVisible <;> simp [ha, hb] <;> omega⟩

instance : IsTrans QueueItem queueLE :=
  ⟨by
    intro a b c hab hbc
    unfold queueLE queueCmp at *
    cases ha : a.isVisible <;> cases hb : b.isVisible <;> cases hc : c.isVisible <;>
      simp [ha, hb, hc] at * <;> omega⟩

/-- `sortMapLoadQueue` from `mapLoaderService.ts`. -/
def sortMapLoadQueue (s : LoaderState) : LoaderState :=
  { s with mapLoadQueue := List.insertionSort queueLE s.mapLoadQueue,
           sortMapCount := s.sortMapCount + 1 }

/-- `sortImageLoadQueue` from `mapLoaderService.ts`. -/
def sortImageLoadQueue (s : LoaderState) : LoaderState :=
  { s with imageLoadQueue := List.insertionSort queueLE s.imageLoadQueue,
           sortImageCount := s.sortImageCount + 1 }

/-- `cache.has(id) && cache.get(id) !== null`. -/
def cacheHasNonNull {α : Type} (cache : String → Option (Option α)) (mapId : String) : Bool :=
  match cache mapId with
  | some (some _) => true
  | _ => false

/-- `queue.findIndex((item) => item.mapId === mapId)`, returning the found
item itself. -/
def findQueued (q : List QueueItem) (mapId : String) : Option QueueItem :=
  q.find? (fun it => it.mapId == mapId)

/-- The in-place update of the first queue entry whose id matches:
`queue[i].isVisible = queue[i].isVisible || isVisible; queue[i].timestamp = now`. -/
def updateQueueItem (mapId : String) (now : Nat) (isVisible : Bool) :
    List QueueItem → List QueueItem
  | [] => []
  | it :: rest =>
    if it.mapId = mapId then
      { it with isVisible := it.isVisible || isVisible, timestamp := now } :: rest
    else it :: updateQueueItem mapId now isVisible rest

/-- The `while` loop of `processMapQueue` (lines 199-224): shift the front
item; skip it if cached non-null or permanently failed; move it to the failure
set if its retry count is exhausted; otherwise bump its retry count, occupy a
concurrency slot and start `loadMapData` for it. -/
def processMapQueueLoop : List QueueItem → LoaderState → LoaderState
  | [], s => { s with mapLoadQueue := [] }
  | item :: rest, s =>
    if MAX_CONCURRENT_MAP_LOADS ≤ s.currentlyLoadingMaps then
      { s with mapLoadQueue := item :: rest }
    else if cacheHasNonNull s.mapCache item.mapId then processMapQueueLoop rest s
    else if s.failedMaps item.mapId then processMapQueueLoop rest s
    else if MAX_RETRY_ATTEMPTS ≤ s.mapRetryAttempts item.mapId then
      processMapQueueLoop rest
        { s with failedMaps := Function.update s.failedMaps item.mapId true }
    else
      processMapQueueLoop rest
        { s with
          mapRetryAttempts := Function.update s.mapRetryAttempts item.mapId
            (s.mapRetryAttempts item.mapId + 1),
          currentlyLoadingMaps := s.currentlyLoadingMaps + 1,
          startedMapFetches := s.startedMapFetches ++ [item.mapId] }

/-- `processMapQueue` from `mapLoaderService.ts` (the scheduler's Advance for
the record queue): return immediately when at the concurrency bound or the
queue is empty, otherwise sort the queue and run the shift loop. -/
def processMapQueue (s0 : LoaderState) : LoaderState :=
  if MAX_CONCURRENT_MAP_LOADS ≤ s0.currentlyLoadingMaps ∨ s0.mapLoadQueue = [] then
    { s0 with advanceMapCount := s0.advanceMapCount + 1 }
  else
    processMapQueueLoop (List.insertionSort queueLE s0.mapLoadQueue)
      (sortMapLoadQueue { s0 with advanceMapCount := s0.advanceMapCount + 1 })

/-- The `while` loop of `processImageQueue` (lines 243-268), mirroring
`processMapQueueLoop` on the image state. -/
def processImageQueueLoop : List QueueItem → LoaderState → LoaderState
  | [], s => { s with imageLoadQueue := [] }
  | item :: rest, s =>
    if MAX_CONCURRENT_IMAGE_LOADS ≤ s.currentlyLoadingImages then
      { s with imageLoadQueue := item :: rest }
    else if cacheHasNonNull s.imageCache item.mapId then processImageQueueLoop rest s
    else if s.failedImages item.mapId then processImageQueueLoop rest s
    else if MAX_RETRY_ATTEMPTS ≤ s.imageRetryAttempts item.mapId then
      processImageQueueLoop rest
        { s with failedImages := Function.update s.failedImages item.mapId true }
    else
      processImageQueueLoop rest
        { s with
          imageRetryAttempts := Function.update s.imageRetryAttempts item.mapId
            (s.imageRetryAttempts item.mapId + 1),
          currentlyLoadingImages := s.currentlyLoadingImages + 1,
          startedImageFetches := s.startedImageFetches ++ [item.mapId] }

/-- `processImageQueue` from `mapLoaderService.ts`. -/
def processImageQueue (s0 : LoaderState) : LoaderState :=
  if MAX_CONCURRENT_IMAGE_LOADS ≤ s0.currentlyLoadingImages ∨ s0.imageLoadQueue = [] then
    { s0 with advanceImageCount := s0.advanceImageCount + 1 }
  else
    processImageQueueLoop (List.insertionSort queueLE s0.imageLoadQueue)
      (sortImageLoadQueue { s0 with advanceImageCount := s0.advanceImageCount + 1 })

/-- Lines 81-106 of `queueMapDataLoad`: update the already-queued entry in
place (OR-ing the visibility flag and refreshing the timestamp, re-sorting
only when the condition `isVisible && !queue[i].isVisible`, evaluated on the
already-updated entry, holds) or push a new entry (sorting when it is
visible). -/
def enqueueMapData (now : Nat) (mapId : String) (isVisible : Bool) (s : LoaderState) :
    LoaderState :=
  match findQueued s.mapLoadQueue mapId with
  | some existing =>
    if isVisible && !(existing.isVisible || isVisible) then
      sortMapLoadQueue
        { s with mapLoadQueue := updateQueueItem mapId now isVisible s.mapLoadQueue }
    else { s with mapLoadQueue := updateQueueItem mapId now isVisible s.mapLoadQueue }
  | none =>
    if isVisible then
      sortMapLoadQueue { s with mapLoadQueue := s.mapLoadQueue ++ [⟨mapId, isVisible, now⟩] }
    else { s with mapLoadQueue := s.mapLoadQueue ++ [⟨mapId, isVisible, now⟩] }

/-- `queueMapDataLoad` from `mapLoaderService.ts`: early return on an empty
id, a permanently failed id, or an id cached with a non-null value; otherwise
enqueue/update and attempt to advance. -/
def queueMapDataLoad (now : Nat) (mapId : String) (isVisible : Bool) (s : LoaderState) :
    LoaderState :=
  if mapId = "" then s
  else if s.failedMaps mapId then s
  else if cacheHasNonNull s.mapCache mapId then s
  else processMapQueue (enqueueMapData now mapId isVisible s)

/-- Lines 123-150 of `queueMapImageLoad`, mirroring `enqueueMapData`. -/
def enqueueMapImage (now : Nat) (mapId : String) (isVisible : Bool) (s : LoaderState) :
    LoaderState :=
  match findQueued s.imageLoadQueue mapId with
  | some existing =>
    if isVisible && !(existing.isVisible || isVisible) then
      sortImageLoadQueue
        { s with imageLoadQueue := updateQueueItem mapId now isVisible s.imageLoadQueue }
    else { s with imageLoadQueue := updateQueueItem mapId now isVisible s.imageLoadQueue }
  | none =>
    if isVisible then
      sortImageLoadQueue { s with imageLoadQueue := s.imageLoadQueue ++ [⟨mapId, isVisible, now⟩] }
    else { s with imageLoadQueue := s.imageLoadQueue ++ [⟨mapId, isVisible, now⟩] }

/-- `queueMapImageLoad` from `mapLoaderService.ts`. -/
def queueMapImageLoad (now : Nat) (mapId : String) (isVisible : Bool) (s : LoaderState) :
    LoaderState :=
  if mapId = "" then s
  else if s.failedImages mapId then s
  else if cacheHasNonNull s.imageCache mapId then s
  else processImageQueue (enqueueMapImage now mapId isVisible s)

/-- The failure (`catch`) path of `loadMapData`: if the retry budget is now
exhausted, add the id to the failure set and cache the `null` sentinel;
otherwise re-enqueue it at non-visible priority.  Then release the concurrency
slot and advance the queue.  Delivered as an explicit event for a fetch that
was previously started. -/
def onMapLoadFailure (now : Nat) (mapId : String) (s : LoaderState) : LoaderState :=
  let s1 :=
    if MAX_RETRY_ATTEMPTS ≤ s.mapRetryAttempts mapId then
      { s with failedMaps := Function.update s.failedMaps mapId true,
               mapCache := Function.update s.mapCache mapId (some none) }
    else queueMapDataLoad now mapId false s
  processMapQueue { s1 with currentlyLoadingMaps := s1.currentlyLoadingMaps - 1 }

/-- The success path of `loadMapData`: cache the record, release the slot and
advance. -/
def onMapLoadSuccess (mapId : String) (record : SoundSpaceMemoryMap) (s : LoaderState) :
    LoaderState :=
  processMapQueue
    { s with mapCache := Function.update s.mapCache mapId (some (some record)),
             currentlyLoadingMaps := s.currentlyLoadingMaps - 1 }

/-- `queueMapLoad` from `mapLoaderService.ts`: queue both the record and the
image of a map. -/
def queueMapLoad (now : Nat) (mapId : String) (isVisible : Bool) (s : LoaderState) :
    LoaderState :=
  if mapId = "" then s
  else queueMapImageLoad now mapId isVisible (queueMapDataLoad now mapId isVisible s)

/-- `setVisibleMaps` from `mapLoaderService.ts`: early return on an empty id
list; otherwise queue every visible id at high priority, recompute every
queued item's flag against membership in the new set, re-sort both queues and
process both queues. -/
def setVisibleMaps (now : Nat) (visibleMapIds : List String) (s : LoaderState) :
    LoaderState :=
  if visibleMapIds = [] then s
  else
    let s1 := visibleMapIds.foldl (fun acc mapId => queueMapLoad now mapId true acc) s
    let s2 := { s1 with
      mapLoadQueue := s1.mapLoadQueue.map
        (fun it => { it with isVisible := visibleMapIds.contains it.mapId }),
      imageLoadQueue := s1.imageLoadQueue.map
        (fun it => { it with isVisible := visibleMapIds.contains it.mapId }) }
    processImageQueue (processMapQueue (sortImageLoadQueue (sortMapLoadQueue s2)))

/-- Deliver the failure completion to every fetch recorded in
`startedMapFetches` from index `k` on, in start order (the single cooperative
execution context delivers each completion after the synchronous code that
started the fetch has returned).  `fuel` bounds the number of deliveries. -/
def driveMapFailuresFrom (now : Nat) : Nat → Nat → LoaderState → LoaderState
  | 0, _, s => s
  | fuel + 1, k, s =>
    match (s.startedMapFetches.drop k).head? with
    | none => s
    | some mapId => driveMapFailuresFrom now fuel (k + 1) (onMapLoadFailure now mapId s)

/-- The closed system of one id whose record fetch always fails: request the
id once from the initial state, then deliver a failure completion to every
record fetch the scheduler ever starts. -/
def alwaysFailScenario (t : Nat) (mapId : String) (isVisible : Bool) : LoaderState :=
  driveMapFailuresFrom t 5 0 (queueMapDataLoad t mapId isVisible initLoaderState)

/-- C3: for an id whose fetch always fails, the record loader attempts the
fetch exactly `MAX_RETRY_ATTEMPTS = 2` times; after the final failed attempt
the id is in the failure set, the `null` sentinel is cached for it, the queue
is empty, and any later `queueMapDataLoad` for the id leaves the state
entirely unchanged, so the id never re-enters the load queue. -/
theorem always_failing_id_retried_exactly_twice_then_terminal
    (t : Nat) (mapId : String) (isVisible : Bool) (hid : mapId ≠ "") :
    MAX_RETRY_ATTEMPTS = 2 ∧
    (alwaysFailScenario t mapId isVisible).startedMapFetches = [mapId, mapId] ∧
    (alwaysFailScenario t mapId isVisible).failedMaps mapId = true ∧
    (alwaysFailScenario t mapId isVisible).mapCache mapId = some none ∧
    (alwaysFailScenario t mapId isVisible).mapLoadQueue = [] ∧
    ∀ t2 isVisible2,
      queueMapDataLoad t2 mapId isVisible2 (alwaysFailScenario t mapId isVisible)
        = alwaysFailScenario t mapId isVisible := by
  cases isVisible <;>
    refine ⟨rfl, ?_, ?_, ?_, ?_, ?_⟩ <;>
      simp [alwaysFailScenario, driveMapFailuresFrom, onMapLoadFailure, queueMapDataLoad,
        enqueueMapData, processMapQueue, processMapQueueLoop, sortMapLoadQueue, findQueued,
        updateQueueItem, cacheHasNonNull, initLoaderState, Function.update,
        MAX_RETRY_ATTEMPTS, MAX_CONCURRENT_MAP_LOADS, List.find?, hid]

/-- Closed witness for the hypothesis of the C3 theorem at a concrete id. -/
theorem always_failing_id_retried_exactly_twice_then_terminal_witness :
    ("m1" : String) ≠ "" ∧ (alwaysFailScenario 7 "m1" true).failedMaps "m1" = true :=
  ⟨by decide,
    (always_failing_id_retried_exactly_twice_then_terminal 7 "m1" true
      (by decide)).2.2.1⟩

theorem updateQueueItem_map_mapId (mapId : String) (now : Nat) (isVisible : Bool) :
    ∀ q : List QueueItem,
      (updateQueueItem mapId now isVisible q).map QueueItem.mapId = q.map QueueItem.mapId
  | [] => rfl
  | it :: rest => by
    by_cases h : it.mapId = mapId <;>
      simp [updateQueueItem, h, updateQueueItem_map_mapId mapId now isVisible rest]

theorem findQueued_eq_none_iff {q : List QueueItem} {mapId : String} :
    findQueued q mapId = none ↔ mapId ∉ q.map QueueItem.mapId := by
  simp [findQueued, List.find?_eq_none, List.mem_map]

theorem findQueued_updateQueueItem {q : List QueueItem} {mapId : String} {old : QueueItem}
    (now : Nat) (isVisible : Bool) (h : findQueued q mapId = some old) :
    findQueued (updateQueueItem mapId now isVisible q) mapId
      = some ⟨mapId, old.isVisible || isVisible, now⟩ := by
  induction q with
  | nil => simp [findQueued] at h
  | cons it rest ih =>
    by_cases hit : it.mapId = mapId
    · have hold : old = it := by
        simp [findQueued, List.find?_cons_of_pos, hit] at h
        exact h.symm
      subst hold
      simp [findQueued, updateQueueItem, hit, List.find?_cons_of_pos]
    · have hrest : findQueued rest mapId = some old := by
        simpa [findQueued, List.find?_cons_of_neg, hit] using h
      simpa [findQueued, updateQueueItem, hit, List.find?_cons_of_neg] using ih hrest

theorem enqueueMapData_nodup (now : Nat) (mapId : String) (isVisible : Bool) (s : LoaderState)
    (hnd : (s.mapLoadQueue.map QueueItem.mapId).Nodup) :
    ((enqueueMapData now mapId isVisible s).mapLoadQueue.map QueueItem.mapId).Nodup := by
  cases hf : findQueued s.mapLoadQueue mapId with
  | some old =>
    have hupd : ((updateQueueItem mapId now isVisible s.mapLoadQueue).map
        QueueItem.mapId).Nodup :=
      updateQueueItem_map_mapId mapId now isVisible s.mapLoadQueue ▸ hnd
    simp only [enqueueMapData, hf]
    split_ifs
    · exact (((List.perm_insertionSort queueLE _).map QueueItem.mapId).nodup_iff).mpr hupd
    · exact hupd
  | none =>
    have hnm : mapId ∉ s.mapLoadQueue.map QueueItem.mapId := findQueued_eq_none_iff.mp hf
    have hdisj : List.Disjoint (s.mapLoadQueue.map QueueItem.mapId) [mapId] := by
      intro a ha hb
      rw [List.mem_singleton] at hb
      subst hb
      exact hnm ha
    have happ : ((s.mapLoadQueue ++ [(⟨mapId, isVisible, now⟩ : QueueItem)]).map
        QueueItem.mapId).Nodup := by
      rw [List.map_append]
      exact hnd.append (List.nodup_singleton _) hdisj
    simp only [enqueueMapData, hf]
    split_ifs
    · exact (((List.perm_insertionSort queueLE _).map QueueItem.mapId).nodup_iff).mpr happ
    · exact happ

theorem processMapQueueLoop_queue_sublist :
    ∀ (q : List QueueItem) (s : LoaderState),
      (processMapQueueLoop q s).mapLoadQueue.Sublist q := by
  intro q
  induction q with
  | nil => intro s; simp [processMapQueueLoop]
  | cons item rest ih =>
    intro s
    unfold processMapQueueLoop
    split_ifs <;>
      first
        | exact List.Sublist.refl _
        | exact (ih _).cons _

theorem processMapQueue_nodup (s : LoaderState)
    (hnd : (s.mapLoadQueue.map QueueItem.mapId).Nodup) :
    ((processMapQueue s).mapLoadQueue.map QueueItem.mapId).Nodup := by
  unfold processMapQueue
  split_ifs with hg
  · exact hnd
  · have hsorted : ((List.insertionSort queueLE s.mapLoadQueue).map QueueItem.mapId).Nodup :=
      (((List.perm_insertionSort queueLE _).map QueueItem.mapId).nodup_iff).mpr hnd
    have hsub := processMapQueueLoop_queue_sublist
      (List.insertionSort queueLE s.mapLoadQueue)
      (sortMapLoadQueue { s with advanceMapCount := s.advanceMapCount + 1 })
    exact hsorted.sublist (hsub.map QueueItem.mapId)

theorem enqueueMapData_update_of_found (now : Nat) (mapId : String) (isVisible : Bool)
    (s : LoaderState) (old : QueueItem) (hf : findQueued s.mapLoadQueue mapId = some old) :
    (enqueueMapData now mapId isVisible s).mapLoadQueue
      = updateQueueItem mapId now isVisible s.mapLoadQueue := by
  simp only [enqueueMapData, hf]
  cases isVisible <;> simp

/-- C4: each load queue contains at most one item per id.  `queueMapDataLoad`
preserves the no-duplicate invariant, and a request for an id that is already
queued rewrites that entry in place: the queue's id sequence is unchanged, and
the entry now carries the OR of the old and new visibility flags and the
refreshed timestamp — no duplicate entry is inserted and no sorting happens in
the update branch. -/
theorem load_queue_at_most_one_item_per_id
    (now : Nat) (mapId : String) (isVisible : Bool) (s : LoaderState)
    (hnd : (s.mapLoadQueue.map QueueItem.mapId).Nodup) :
    ((queueMapDataLoad now mapId isVisible s).mapLoadQueue.map QueueItem.mapId).Nodup ∧
    ∀ old, findQueued s.mapLoadQueue mapId = some old →
      (enqueueMapData now mapId isVisible s).mapLoadQueue
          = updateQueueItem mapId now isVisible s.mapLoadQueue ∧
      (updateQueueItem mapId now isVisible s.mapLoadQueue).map QueueItem.mapId
          = s.mapLoadQueue.map QueueItem.mapId ∧
      findQueued (updateQueueItem mapId now isVisible s.mapLoadQueue) mapId
          = some ⟨mapId, old.isVisible || isVisible, now⟩ := by
  constructor
  · unfold queueMapDataLoad
    split_ifs with h1 h2 h3
    · exact hnd
    · exact hnd
    · exact hnd
    · exact processMapQueue_nodup _ (enqueueMapData_nodup now mapId isVisible s hnd)
  · intro old hf
    exact ⟨enqueueMapData_update_of_found now mapId isVisible s old hf,
      updateQueueItem_map_mapId mapId now isVisible s.mapLoadQueue,
      findQueued_updateQueueItem now isVisible hf⟩

/-- Closed witness for the C4 theorem: a queue holding one entry for `"a"`,
re-requested with visibility `true`. -/
theorem load_queue_at_most_one_item_per_id_witness :
    ((({ initLoaderState with
          mapLoadQueue := [⟨"a", false, 3⟩] } : LoaderState).mapLoadQueue.map
        QueueItem.mapId).Nodup) ∧
    ((queueMapDataLoad 9 "a" true
        { initLoaderState with mapLoadQueue := [⟨"a", false, 3⟩] }).mapLoadQueue.map
      QueueItem.mapId).Nodup :=
  ⟨by decide,
    (load_queue_at_most_one_item_per_id 9 "a" true
      { initLoaderState with mapLoadQueue := [⟨"a", false, 3⟩] } (by decide)).1⟩

/-- The record-side half of the scheduler state, used to show that image-side
operations leave it untouched. -/
def mapSideView (s : LoaderState) :=
  (s.mapLoadQueue, s.mapCache, s.failedMaps, s.mapRetryAttempts, s.currentlyLoadingMaps,
    s.startedMapFetches, s.advanceMapCount, s.sortMapCount)

/-- The image-side half of the scheduler state. -/
def imageSideView (s : LoaderState) :=
  (s.imageLoadQueue, s.imageCache, s.failedImages, s.imageRetryAttempts,
    s.currentlyLoadingImages, s.startedImageFetches, s.advanceImageCount, s.sortImageCount)

theorem processImageQueueLoop_mapSide :
    ∀ (q : List QueueItem) (s : LoaderState),
      mapSideView (processImageQueueLoop q s) = mapSideView s := by
  intro q
  induction q with
  | nil => intro s; rfl
  | cons item rest ih =>
    intro s
    unfold processImageQueueLoop
    split_ifs <;> first | rfl | exact ih _

theorem processImageQueue_mapSide (s : LoaderState) :
    mapSideView (processImageQueue s) = mapSideView s := by
  unfold processImageQueue
  split_ifs
  · rfl
  · rw [processImageQueueLoop_mapSide]
    rfl

theorem enqueueMapImage_mapSide (now : Nat) (mapId : String) (isVisible : Bool)
    (s : LoaderState) : mapSideView (enqueueMapImage now mapId isVisible s) = mapSideView s := by
  cases hf : findQueued s.imageLoadQueue mapId <;>
    simp only [enqueueMapImage, hf] <;> split_ifs <;> rfl

theorem queueMapImageLoad_mapSide (now : Nat) (mapId : String) (isVisible : Bool)
    (s : LoaderState) : mapSideView (queueMapImageLoad now mapId isVisible s) = mapSideView s := by
  unfold queueMapImageLoad
  split_ifs <;>
    first
      | rfl
      | rw [processImageQueue_mapSide, enqueueMapImage_mapSide]

theorem processMapQueueLoop_imageSide :
    ∀ (q : List QueueItem) (s : LoaderState),
      imageSideView (processMapQueueLoop q s) = imageSideView s := by
  intro q
  induction q with
  | nil => intro s; rfl
  | cons item rest ih =>
    intro s
    unfold processMapQueueLoop
    split_ifs <;> first | rfl | exact ih _

theorem processMapQueue_imageSide (s : LoaderState) :
    imageSideView (processMapQueue s) = imageSideView s := by
  unfold processMapQueue
  split_ifs
  · rfl
  · rw [processMapQueueLoop_imageSide]
    rfl

theorem enqueueMapData_imageSide (now : Nat) (mapId : String) (isVisible : Bool)
    (s : LoaderState) : imageSideView (enqueueMapData now mapId isVisible s) = imageSideView s := by
  cases hf : findQueued s.mapLoadQueue mapId <;>
    simp only [enqueueMapData, hf] <;> split_ifs <;> rfl

theorem queueMapDataLoad_imageSide (now : Nat) (mapId : String) (isVisible : Bool)
    (s : LoaderState) : imageSideView (queueMapDataLoad now mapId isVisible s) = imageSideView s := by
  unfold queueMapDataLoad
  split_ifs <;>
    first
      | rfl
      | rw [processMapQueue_imageSide, enqueueMapData_imageSide]

theorem processMapQueueLoop_of_loading (q : List QueueItem) (s : LoaderState)
    (h : MAX_CONCURRENT_MAP_LOADS ≤ s.currentlyLoadingMaps) :
    processMapQueueLoop q s = { s with mapLoadQueue := q } := by
  cases q with
  | nil => rfl
  | cons item rest => rw [processMapQueueLoop, if_pos h]

theorem processMapQueue_of_loading (s : LoaderState)
    (h : MAX_CONCURRENT_MAP_LOADS ≤ s.currentlyLoadingMaps) :
    processMapQueue s = { s with advanceMapCount := s.advanceMapCount + 1 } := by
  rw [processMapQueue, if_pos (Or.inl h)]

theorem enqueueMapData_eq_of_found (now : Nat) (mapId : String) (isVisible : Bool)
    (s : LoaderState) (old : QueueItem) (hf : findQueued s.mapLoadQueue mapId = some old) :
    enqueueMapData now mapId isVisible s
      = { s with mapLoadQueue := updateQueueItem mapId now isVisible s.mapLoadQueue } := by
  simp only [enqueueMapData, hf]
  cases isVisible <;> simp

theorem updateQueueItem_visible_only_target (mapId : String) (now : Nat) (isVisible : Bool) :
    ∀ q : List QueueItem, (∀ it ∈ q, it.isVisible = false) →
      ∀ it ∈ updateQueueItem mapId now isVisible q, it.isVisible = true → it.mapId = mapId := by
  intro q
  induction q with
  | nil => intro _ it hit; simp [updateQueueItem] at hit
  | cons hd rest ih =>
    intro hall it hit hvis
    by_cases hhd : hd.mapId = mapId
    · rw [updateQueueItem, if_pos hhd] at hit
      rcases List.mem_cons.mp hit with heq | hmem
      · rw [heq]; exact hhd
      · have h1 : it.isVisible = false := hall it (List.mem_cons_of_mem hd hmem)
        rw [h1] at hvis
        exact absurd hvis (by decide)
    · rw [updateQueueItem, if_neg hhd] at hit
      rcases List.mem_cons.mp hit with heq | hmem
      · have h1 : hd.isVisible = false := hall hd (List.mem_cons_self hd rest)
        rw [heq, h1] at hvis
        exact absurd hvis (by decide)
      · exact ih (fun b hb => hall b (List.mem_cons_of_mem hd hb)) it hmem hvis

/-- The shift loop, on a queue whose front item is loadable while a slot is
free, starts exactly the front item's fetch. -/
theorem processMapQueueLoop_starts_head (hd : QueueItem) (tl : List QueueItem)
    (S : LoaderState) (h0 : S.currentlyLoadingMaps = 0)
    (hc : cacheHasNonNull S.mapCache hd.mapId = false)
    (hf : S.failedMaps hd.mapId = false)
    (hr : S.mapRetryAttempts hd.mapId < MAX_RETRY_ATTEMPTS) :
    (processMapQueueLoop (hd :: tl) S).startedMapFetches
        = S.startedMapFetches ++ [hd.mapId] ∧
    (processMapQueueLoop (hd :: tl) S).currentlyLoadingMaps = 1 := by
  rw [processMapQueueLoop, if_neg (by simp [h0, MAX_CONCURRENT_MAP_LOADS]),
    if_neg (by simp [hc]), if_neg (by simp [hf]), if_neg (by omega),
    processMapQueueLoop_of_loading _ _ (by simp [h0, MAX_CONCURRENT_MAP_LOADS])]
  exact ⟨rfl, by simp [h0]⟩

/-- When the record slot is busy, the closing pair of Advance invocations
starts no record fetch. -/
theorem processQueues_after_busy (u : LoaderState) (h : u.currentlyLoadingMaps = 1) :
    (processImageQueue (processMapQueue u)).startedMapFetches = u.startedMapFetches := by
  rw [processMapQueue_of_loading u (by simp [h, MAX_CONCURRENT_MAP_LOADS])]
  have h2 := congrArg (fun t => t.2.2.2.2.2.1)
    (processImageQueue_mapSide { u with advanceMapCount := u.advanceMapCount + 1 })
  simp only [mapSideView] at h2
  exact h2

/-- When a free slot exists and the queue holds a visible item, and every
visible item is the target id (which is loadable), Advance pops the target id
first: the one record fetch it starts is for that id. -/
theorem processMapQueue_pops_visible_target (x : String) (s : LoaderState)
    (h0 : s.currentlyLoadingMaps = 0)
    (hvis1 : ∃ v ∈ s.mapLoadQueue, v.isVisible = true)
    (hvisx : ∀ it ∈ s.mapLoadQueue, it.isVisible = true → it.mapId = x)
    (hfx : s.failedMaps x = false)
    (hcx : cacheHasNonNull s.mapCache x = false)
    (hrx : s.mapRetryAttempts x < MAX_RETRY_ATTEMPTS) :
    (processMapQueue s).startedMapFetches = s.startedMapFetches ++ [x] ∧
    (processMapQueue s).currentlyLoadingMaps = 1 := by
  obtain ⟨v, hvmem, hvvis⟩ := hvis1
  have hqne : s.mapLoadQueue ≠ [] := by
    intro h
    rw [h] at hvmem
    exact absurd hvmem (List.not_mem_nil v)
  have hguard : ¬(MAX_CONCURRENT_MAP_LOADS ≤ s.currentlyLoadingMaps ∨ s.mapLoadQueue = []) := by
    rw [h0]
    simp [MAX_CONCURRENT_MAP_LOADS, hqne]
  rw [processMapQueue, if_neg hguard]
  have hperm := List.perm_insertionSort queueLE s.mapLoadQueue
  have hsorted := List.sorted_insertionSort queueLE s.mapLoadQueue
  cases hq : List.insertionSort queueLE s.mapLoadQueue with
  | nil =>
    exact absurd (hperm.symm.mem_iff.mp hvmem) (by rw [hq]; exact List.not_mem_nil v)
  | cons hd tl =>
    rw [hq] at hsorted hperm
    have hhdvis : hd.isVisible = true := by
      rcases List.mem_cons.mp (hperm.symm.mem_iff.mp hvmem) with heq | hmem
      · rw [← heq]; exact hvvis
      · by_contra hhd
        have hle := (List.sorted_cons.mp hsorted).1 v hmem
        unfold queueLE queueCmp at hle
        rw [hvvis] at hle
        simp [Bool.not_eq_true] at hhd
        rw [hhd] at hle
        simp at hle
    have hhdx : hd.mapId = x :=
      hvisx hd (hperm.mem_iff.mp (List.mem_cons_self hd tl)) hhdvis
    have := processMapQueueLoop_starts_head hd tl
      (sortMapLoadQueue { s with advanceMapCount := s.advanceMapCount + 1 })
      (by simp [sortMapLoadQueue, h0]) (by simp [sortMapLoadQueue, hhdx, hcx])
      (by simp [sortMapLoadQueue, hhdx, hfx]) (by simp [sortMapLoadQueue, hhdx]; omega)
    simpa [sortMapLoadQueue, hhdx] using this

/-- C5: (a) whenever a load queue is sorted, every visible item precedes every
non-visible item, and within each visibility class timestamps are
non-increasing (most recently touched first); (b) consequently, if the queue
holds only non-visible ids, a free concurrency slot exists, and `x` is one of
the queued (loadable) ids, then `setVisibleMaps` with `[x]` makes the very
next Advance pop `x` first: the single record fetch started is for `x`. -/
theorem sorted_queue_visible_first_and_preemption :
    (∀ s : LoaderState, (sortMapLoadQueue s).mapLoadQueue.Pairwise
      (fun a b => (b.isVisible = true → a.isVisible = true) ∧
        (a.isVisible = b.isVisible → b.timestamp ≤ a.timestamp))) ∧
    (∀ (now : Nat) (x : String) (s : LoaderState), x ≠ "" →
      (∀ it ∈ s.mapLoadQueue, it.isVisible = false) →
      x ∈ s.mapLoadQueue.map QueueItem.mapId →
      s.currentlyLoadingMaps = 0 →
      s.failedMaps x = false →
      cacheHasNonNull s.mapCache x = false →
      s.mapRetryAttempts x < MAX_RETRY_ATTEMPTS →
      (setVisibleMaps now [x] s).startedMapFetches = s.startedMapFetches ++ [x]) := by
  constructor
  · intro s
    refine List.Pairwise.imp ?_ (List.sorted_insertionSort queueLE s.mapLoadQueue)
    intro a b hab
    unfold queueLE queueCmp at hab
    cases ha : a.isVisible <;> cases hb : b.isVisible <;>
      simp [ha, hb] at hab ⊢ <;> omega
  · intro now x s hxne hallinvis hxmem h0 hfx hcx hrx
    have hfind : ∃ old, findQueued s.mapLoadQueue x = some old := by
      have : (s.mapLoadQueue.find? (fun it => it.mapId == x)).isSome := by
        rw [List.find?_isSome]
        rcases List.mem_map.mp hxmem with ⟨it, hitmem, hitid⟩
        exact ⟨it, hitmem, by simp [hitid]⟩
      exact Option.isSome_iff_exists.mp this
    obtain ⟨old, hfound⟩ := hfind
    -- the state after queueMapDataLoad x true
    have henq := enqueueMapData_eq_of_found now x true s old hfound
    have hq' := findQueued_updateQueueItem (q := s.mapLoadQueue) now true hfound
    have hupdmem : (⟨x, old.isVisible || true, now⟩ : QueueItem)
        ∈ updateQueueItem x now true s.mapLoadQueue :=
      List.mem_of_find?_eq_some hq'
    have hstep1 : (queueMapDataLoad now x true s).startedMapFetches
          = s.startedMapFetches ++ [x] ∧
        (queueMapDataLoad now x true s).currentlyLoadingMaps = 1 := by
      rw [queueMapDataLoad, if_neg hxne, if_neg (by simp [hfx]), if_neg (by simp [hcx]), henq]
      exact processMapQueue_pops_visible_target x _ h0
        ⟨⟨x, old.isVisible || true, now⟩, hupdmem, by simp⟩
        (updateQueueItem_visible_only_target x now true s.mapLoadQueue hallinvis)
        hfx hcx hrx
    -- the image-side call leaves the record side untouched
    set r1 := queueMapDataLoad now x true s with hr1
    set r2 := queueMapImageLoad now x true r1 with hr2
    have hside := queueMapImageLoad_mapSide now x true r1
    have hstarted2 : r2.startedMapFetches = s.startedMapFetches ++ [x] := by
      have h := congrArg (fun t => t.2.2.2.2.2.1) hside
      simp only [mapSideView] at h
      exact h.trans hstep1.1
    have hload2 : r2.currentlyLoadingMaps = 1 := by
      have h := congrArg (fun t => t.2.2.2.2.1) hside
      simp only [mapSideView] at h
      exact h.trans hstep1.2
    -- the tail of setVisibleMaps: bulk recompute, both sorts, both advances
    rw [setVisibleMaps, if_neg (by simp)]
    simp only [List.foldl_cons, List.foldl_nil, queueMapLoad, if_neg hxne]
    rw [← hr1, ← hr2]
    rw [processQueues_after_busy]
    · simp [sortImageLoadQueue, sortMapLoadQueue, hstarted2]
    · simp [sortImageLoadQueue, sortMapLoadQueue, hload2]

/-- Closed witness for the C5 theorem: two non-visible queued ids, `"b"`
becomes visible, and the next Advance starts the fetch for `"b"`. -/
theorem sorted_queue_visible_first_and_preemption_witness :
    (setVisibleMaps 10 ["b"]
        { initLoaderState with
          mapLoadQueue := [⟨"a", false, 1⟩, ⟨"b", false, 2⟩] }).startedMapFetches
      = [] ++ ["b"] :=
  sorted_queue_visible_first_and_preemption.2 10 "b"
    { initLoaderState with mapLoadQueue := [⟨"a", false, 1⟩, ⟨"b", false, 2⟩] }
    (by decide) (by decide) (by decide) rfl rfl rfl (by decide)

theorem processMapQueueLoop_accounting :
    ∀ (q : List QueueItem) (s : LoaderState),
      (processMapQueueLoop q s).mapCache = s.mapCache ∧
      (processMapQueueLoop q s).advanceMapCount = s.advanceMapCount ∧
      (∀ j, s.mapRetryAttempts j < MAX_RETRY_ATTEMPTS →
        (processMapQueueLoop q s).failedMaps j = s.failedMaps j) ∧
      ((processMapQueueLoop q s).currentlyLoadingMaps = 0 →
        (processMapQueueLoop q s).mapRetryAttempts = s.mapRetryAttempts ∧
        s.currentlyLoadingMaps = 0) := by
  intro q
  induction q with
  | nil => intro s; exact ⟨rfl, rfl, fun j _ => rfl, fun h => ⟨rfl, h⟩⟩
  | cons item rest ih =>
    intro s
    rw [processMapQueueLoop]
    split_ifs with h1 h2 h3 h4
    · exact ⟨rfl, rfl, fun j _ => rfl, fun h => ⟨rfl, h⟩⟩
    · exact ih s
    · exact ih s
    · obtain ⟨ha, hb, hc, hd⟩ :=
        ih { s with failedMaps := Function.update s.failedMaps item.mapId true }
      refine ⟨ha, hb, ?_, ?_⟩
      · intro j hj
        rw [hc j hj]
        have hne : j ≠ item.mapId := by
          intro heq
          rw [heq] at hj
          omega
        simp [Function.update, hne]
      · intro h
        obtain ⟨h5, h6⟩ := hd h
        exact ⟨h5, h6⟩
    · rw [processMapQueueLoop_of_loading _ _ (by simp [MAX_CONCURRENT_MAP_LOADS])]
      refine ⟨rfl, rfl, fun j _ => rfl, ?_⟩
      intro h
      exact absurd h (by simp)

theorem processMapQueue_accounting (s : LoaderState) :
    (processMapQueue s).advanceMapCount = s.advanceMapCount + 1 ∧
    (processMapQueue s).mapCache = s.mapCache ∧
    (∀ j, (s.currentlyLoadingMaps = 0 → s.mapRetryAttempts j < MAX_RETRY_ATTEMPTS) →
      (processMapQueue s).failedMaps j = s.failedMaps j) ∧
    ((processMapQueue s).currentlyLoadingMaps = 0 →
      (processMapQueue s).mapRetryAttempts = s.mapRetryAttempts ∧
      s.currentlyLoadingMaps = 0) := by
  rw [processMapQueue]
  split_ifs with hg
  · exact ⟨rfl, rfl, fun j _ => rfl, fun h => ⟨rfl, h⟩⟩
  · have h0 : s.currentlyLoadingMaps = 0 := by
      simp [MAX_CONCURRENT_MAP_LOADS] at hg
      omega
    obtain ⟨ha, hb, hc, hd⟩ := processMapQueueLoop_accounting
      (List.insertionSort queueLE s.mapLoadQueue)
      (sortMapLoadQueue { s with advanceMapCount := s.advanceMapCount + 1 })
    refine ⟨?_, ?_, ?_, ?_⟩
    · rw [hb]; rfl
    · rw [ha]; rfl
    · intro j hj
      rw [hc j (by simpa [sortMapLoadQueue] using hj h0)]
      rfl
    · intro h
      obtain ⟨h5, _⟩ := hd h
      exact ⟨by rw [h5]; rfl, h0⟩

theorem enqueueMapData_core (now : Nat) (mapId : String) (isVisible : Bool) (s : LoaderState) :
    (enqueueMapData now mapId isVisible s).mapCache = s.mapCache ∧
    (enqueueMapData now mapId isVisible s).failedMaps = s.failedMaps ∧
    (enqueueMapData now mapId isVisible s).mapRetryAttempts = s.mapRetryAttempts ∧
    (enqueueMapData now mapId isVisible s).currentlyLoadingMaps = s.currentlyLoadingMaps ∧
    (enqueueMapData now mapId isVisible s).advanceMapCount = s.advanceMapCount := by
  cases hf : findQueued s.mapLoadQueue mapId <;>
    simp only [enqueueMapData, hf] <;> split_ifs <;>
      exact ⟨rfl, rfl, rfl, rfl, rfl⟩

theorem queueMapDataLoad_accounting (now : Nat) (mapId : String) (isVisible : Bool)
    (s : LoaderState) (hne : mapId ≠ "") (hfm : s.failedMaps mapId = false)
    (hcm : cacheHasNonNull s.mapCache mapId = false) :
    (queueMapDataLoad now mapId isVisible s).advanceMapCount = s.advanceMapCount + 1 ∧
    (queueMapDataLoad now mapId isVisible s).mapCache = s.mapCache ∧
    (∀ j, (s.currentlyLoadingMaps = 0 → s.mapRetryAttempts j < MAX_RETRY_ATTEMPTS) →
      (queueMapDataLoad now mapId isVisible s).failedMaps j = s.failedMaps j) ∧
    ((queueMapDataLoad now mapId isVisible s).currentlyLoadingMaps = 0 →
      (queueMapDataLoad now mapId isVisible s).mapRetryAttempts = s.mapRetryAttempts ∧
      s.currentlyLoadingMaps = 0) := by
  rw [queueMapDataLoad, if_neg hne, if_neg (by simp [hfm]), if_neg (by simp [hcm])]
  obtain ⟨e1, e2, e3, e4, e5⟩ := enqueueMapData_core now mapId isVisible s
  obtain ⟨p1, p2, p3, p4⟩ := processMapQueue_accounting (enqueueMapData now mapId isVisible s)
  refine ⟨by rw [p1, e5], by rw [p2, e1], ?_, ?_⟩
  · intro j hj
    rw [p3 j (by rw [e4, e3]; exact hj), e2]
  · intro h
    obtain ⟨h5, h6⟩ := p4 h
    rw [e4] at h6
    exact ⟨by rw [h5, e3], h6⟩

theorem processImageQueueLoop_accounting :
    ∀ (q : List QueueItem) (s : LoaderState),
      (processImageQueueLoop q s).imageCache = s.imageCache ∧
      (processImageQueueLoop q s).advanceImageCount = s.advanceImageCount ∧
      (∀ j, s.imageRetryAttempts j < MAX_RETRY_ATTEMPTS →
        (processImageQueueLoop q s).failedImages j = s.failedImages j) ∧
      ((processImageQueueLoop q s).currentlyLoadingImages = 0 →
        (processImageQueueLoop q s).imageRetryAttempts = s.imageRetryAttempts ∧
        s.currentlyLoadingImages = 0) := by
  intro q
  induction q with
  | nil => intro s; exact ⟨rfl, rfl, fun j _ => rfl, fun h => ⟨rfl, h⟩⟩
  | cons item rest ih =>
    intro s
    rw [processImageQueueLoop]
    split_ifs with h1 h2 h3 h4
    · exact ⟨rfl, rfl, fun j _ => rfl, fun h => ⟨rfl, h⟩⟩
    · exact ih s
    · exact ih s
    · obtain ⟨ha, hb, hc, hd⟩ :=
        ih { s with failedImages := Function.update s.failedImages item.mapId true }
      refine ⟨ha, hb, ?_, ?_⟩
      · intro j hj
        rw [hc j hj]
        have hne : j ≠ item.mapId := by
          intro heq
          rw [heq] at hj
          omega
        simp [Function.update, hne]
      · intro h
        obtain ⟨h5, h6⟩ := hd h
        exact ⟨h5, h6⟩
    · have hstop : ∀ (q2 : List QueueItem) (s2 : LoaderState),
          MAX_CONCURRENT_IMAGE_LOADS ≤ s2.currentlyLoadingImages →
          processImageQueueLoop q2 s2 = { s2 with imageLoadQueue := q2 } := by
        intro q2 s2 h2
        cases q2 with
        | nil => rfl
        | cons a b => rw [processImageQueueLoop, if_pos h2]
      rw [hstop _ _ (by simp [MAX_CONCURRENT_IMAGE_LOADS])]
      refine ⟨rfl, rfl, fun j _ => rfl, ?_⟩
      intro h
      exact absurd h (by simp)

theorem processImageQueue_accounting (s : LoaderState) :
    (processImageQueue s).advanceImageCount = s.advanceImageCount + 1 ∧
    (processImageQueue s).imageCache = s.imageCache ∧
    (∀ j, (s.currentlyLoadingImages = 0 → s.imageRetryAttempts j < MAX_RETRY_ATTEMPTS) →
      (processImageQueue s).failedImages j = s.failedImages j) ∧
    ((processImageQueue s).currentlyLoadingImages = 0 →
      (processImageQueue s).imageRetryAttempts = s.imageRetryAttempts ∧
      s.currentlyLoadingImages = 0) := by
  rw [processImageQueue]
  split_ifs with hg
  · exact ⟨rfl, rfl, fun j _ => rfl, fun h => ⟨rfl, h⟩⟩
  · have h0 : s.currentlyLoadingImages = 0 := by
      simp [MAX_CONCURRENT_IMAGE_LOADS] at hg
      omega
    obtain ⟨ha, hb, hc, hd⟩ := processImageQueueLoop_accounting
      (List.insertionSort queueLE s.imageLoadQueue)
      (sortImageLoadQueue { s with advanceImageCount := s.advanceImageCount + 1 })
    refine ⟨?_, ?_, ?_, ?_⟩
    · rw [hb]; rfl
    · rw [ha]; rfl
    · intro j hj
      rw [hc j (by simpa [sortImageLoadQueue] using hj h0)]
      rfl
    · intro h
      obtain ⟨h5, _⟩ := hd h
      exact ⟨by rw [h5]; rfl, h0⟩

theorem enqueueMapImage_core (now : Nat) (mapId : String) (isVisible : Bool) (s : LoaderState) :
    (enqueueMapImage now mapId isVisible s).imageCache = s.imageCache ∧
    (enqueueMapImage now mapId isVisible s).failedImages = s.failedImages ∧
    (enqueueMapImage now mapId isVisible s).imageRetryAttempts = s.imageRetryAttempts ∧
    (enqueueMapImage now mapId isVisible s).currentlyLoadingImages = s.currentlyLoadingImages ∧
    (enqueueMapImage now mapId isVisible s).advanceImageCount = s.advanceImageCount := by
  cases hf : findQueued s.imageLoadQueue mapId <;>
    simp only [enqueueMapImage, hf] <;> split_ifs <;>
      exact ⟨rfl, rfl, rfl, rfl, rfl⟩

theorem queueMapImageLoad_accounting (now : Nat) (mapId : String) (isVisible : Bool)
    (s : LoaderState) (hne : mapId ≠ "") (hfm : s.failedImages mapId = false)
    (hcm : cacheHasNonNull s.imageCache mapId = false) :
    (queueMapImageLoad now mapId isVisible s).advanceImageCount = s.advanceImageCount + 1 ∧
    (queueMapImageLoad now mapId isVisible s).imageCache = s.imageCache ∧
    (∀ j, (s.currentlyLoadingImages = 0 → s.imageRetryAttempts j < MAX_RETRY_ATTEMPTS) →
      (queueMapImageLoad now mapId isVisible s).failedImages j = s.failedImages j) ∧
    ((queueMapImageLoad now mapId isVisible s).currentlyLoadingImages = 0 →
      (queueMapImageLoad now mapId isVisible s).imageRetryAttempts = s.imageRetryAttempts ∧
      s.currentlyLoadingImages = 0) := by
  rw [queueMapImageLoad, if_neg hne, if_neg (by simp [hfm]), if_neg (by simp [hcm])]
  obtain ⟨e1, e2, e3, e4, e5⟩ := enqueueMapImage_core now mapId isVisible s
  obtain ⟨p1, p2, p3, p4⟩ := processImageQueue_accounting (enqueueMapImage now mapId isVisible s)
  refine ⟨by rw [p1, e5], by rw [p2, e1], ?_, ?_⟩
  · intro j hj
    rw [p3 j (by rw [e4, e3]; exact hj), e2]
  · intro h
    obtain ⟨h5, h6⟩ := p4 h
    rw [e4] at h6
    exact ⟨by rw [h5, e3], h6⟩

/-- The per-fold-step invariant for `setVisibleMaps`: every still-unprocessed
id is non-empty, not permanently failed, and not cached with a non-null value
on either side; and while a side's slot is free, every unprocessed id still
has retry budget on that side. -/
def VisibleFoldInv (ids : List String) (s : LoaderState) : Prop :=
  (∀ id ∈ ids, id ≠ "" ∧ s.failedMaps id = false ∧ cacheHasNonNull s.mapCache id = false ∧
    s.failedImages id = false ∧ cacheHasNonNull s.imageCache id = false) ∧
  (s.currentlyLoadingMaps = 0 → ∀ id ∈ ids, s.mapRetryAttempts id < MAX_RETRY_ATTEMPTS) ∧
  (s.currentlyLoadingImages = 0 → ∀ id ∈ ids, s.imageRetryAttempts id < MAX_RETRY_ATTEMPTS)

theorem foldl_queueMapLoad_advance (now : Nat) :
    ∀ (ids : List String) (s : LoaderState), VisibleFoldInv ids s →
      (ids.foldl (fun acc mapId => queueMapLoad now mapId true acc) s).advanceMapCount
          = s.advanceMapCount + ids.length ∧
      (ids.foldl (fun acc mapId => queueMapLoad now mapId true acc) s).advanceImageCount
          = s.advanceImageCount + ids.length := by
  intro ids
  induction ids with
  | nil => intro s _; exact ⟨rfl, rfl⟩
  | cons id rest ih =>
    intro s hinv
    obtain ⟨hids, hrm, hri⟩ := hinv
    obtain ⟨hne, hfm, hcm, hfi, hci⟩ := hids id (List.mem_cons_self id rest)
    obtain ⟨d1, d2, d3, d4⟩ := queueMapDataLoad_accounting now id true s hne hfm hcm
    set r1 := queueMapDataLoad now id true s with hr1
    have hr1img := queueMapDataLoad_imageSide now id true s
    have r1imgCache : r1.imageCache = s.imageCache :=
      congrArg (fun t => t.2.1) hr1img
    have r1failedImages : r1.failedImages = s.failedImages :=
      congrArg (fun t => t.2.2.1) hr1img
    have r1imgRetry : r1.imageRetryAttempts = s.imageRetryAttempts :=
      congrArg (fun t => t.2.2.2.1) hr1img
    have r1imgLoading : r1.currentlyLoadingImages = s.currentlyLoadingImages :=
      congrArg (fun t => t.2.2.2.2.1) hr1img
    have r1imgAdvance : r1.advanceImageCount = s.advanceImageCount :=
      congrArg (fun t => t.2.2.2.2.2.2.1) hr1img
    obtain ⟨i1, i2, i3, i4⟩ := queueMapImageLoad_accounting now id true r1 hne
      (by rw [r1failedImages]; exact hfi) (by rw [r1imgCache]; exact hci)
    set r2 := queueMapImageLoad now id true r1 with hr2
    have hr2map := queueMapImageLoad_mapSide now id true r1
    have r2mapCache : r2.mapCache = r1.mapCache := congrArg (fun t => t.2.1) hr2map
    have r2failedMaps : r2.failedMaps = r1.failedMaps := congrArg (fun t => t.2.2.1) hr2map
    have r2mapRetry : r2.mapRetryAttempts = r1.mapRetryAttempts :=
      congrArg (fun t => t.2.2.2.1) hr2map
    have r2mapLoading : r2.currentlyLoadingMaps = r1.currentlyLoadingMaps :=
      congrArg (fun t => t.2.2.2.2.1) hr2map
    have r2mapAdvance : r2.advanceMapCount = r1.advanceMapCount :=
      congrArg (fun t => t.2.2.2.2.2.2.1) hr2map
    have hinv2 : VisibleFoldInv rest r2 := by
      refine ⟨?_, ?_, ?_⟩
      · intro j hj
        obtain ⟨jne, jfm, jcm, jfi, jci⟩ := hids j (List.mem_cons_of_mem id hj)
        refine ⟨jne, ?_, ?_, ?_, ?_⟩
        · rw [r2failedMaps, d3 j (fun h0 => hrm h0 j (List.mem_cons_of_mem id hj))]
          exact jfm
        · rw [r2mapCache, d2]; exact jcm
        · rw [i3 j ?_, r1failedImages]
          · exact jfi
          · intro h0
            rw [r1imgRetry]
            exact hri (by rw [← r1imgLoading]; exact h0) j (List.mem_cons_of_mem id hj)
        · rw [i2, r1imgCache]; exact jci
      · intro h0 j hj
        rw [r2mapLoading] at h0
        obtain ⟨hret, hload0⟩ := d4 h0
        rw [r2mapRetry, hret]
        exact hrm hload0 j (List.mem_cons_of_mem id hj)
      · intro h0 j hj
        obtain ⟨hret, hload0⟩ := i4 h0
        rw [hret, r1imgRetry]
        exact hri (by rw [← r1imgLoading]; exact hload0) j (List.mem_cons_of_mem id hj)
    obtain ⟨f1, f2⟩ := ih r2 hinv2
    constructor
    · rw [List.foldl_cons]
      rw [show (queueMapLoad now id true s) = r2 by
        rw [hr2, hr1, queueMapLoad, if_neg hne]]
      rw [f1, r2mapAdvance, d1, List.length_cons]
      omega
    · rw [List.foldl_cons]
      rw [show (queueMapLoad now id true s) = r2 by
        rw [hr2, hr1, queueMapLoad, if_neg hne]]
      rw [f2, i1, r1imgAdvance, List.length_cons]
      omega

/-- C7 (counterexample to the claim as stated): with two fresh non-visible
queued ids and a free slot, `setVisibleMaps` invokes the record-queue Advance
three times (once per id inside the loop plus once at the end), not exactly
once, and the record queue is sorted twice, not exactly once. -/
theorem setVisibleMaps_advance_not_exactly_once :
    ¬((setVisibleMaps 10 ["a", "b"]
          { initLoaderState with
            mapLoadQueue := [⟨"a", false, 1⟩, ⟨"b", false, 2⟩] }).advanceMapCount
        = ({ initLoaderState with
              mapLoadQueue := [⟨"a", false, 1⟩, ⟨"b", false, 2⟩] } : LoaderState).advanceMapCount
            + 1 ∧
      (setVisibleMaps 10 ["a", "b"]
          { initLoaderState with
            mapLoadQueue := [⟨"a", false, 1⟩, ⟨"b", false, 2⟩] }).sortMapCount
        = ({ initLoaderState with
              mapLoadQueue := [⟨"a", false, 1⟩, ⟨"b", false, 2⟩] } : LoaderState).sortMapCount
            + 1) := by
  decide

/-- C7 (amended): a `setVisibleMaps` bulk update performs its explicit re-sort
of each queue once after the bulk flag recompute and invokes one final
Advance, but every per-id enqueue during the update also invokes Advance
immediately (and that call may itself re-sort), so for fresh loadable ids each
queue's Advance runs exactly `ids.length + 1` times per `setVisibleMaps` call
rather than exactly once. -/
theorem setVisibleMaps_advance_once_per_id_plus_one (now : Nat) (ids : List String)
    (s : LoaderState) (hne : ids ≠ []) (hinv : VisibleFoldInv ids s) :
    (setVisibleMaps now ids s).advanceMapCount = s.advanceMapCount + ids.length + 1 ∧
    (setVisibleMaps now ids s).advanceImageCount = s.advanceImageCount + ids.length + 1 := by
  rw [setVisibleMaps, if_neg hne]
  obtain ⟨f1, f2⟩ := foldl_queueMapLoad_advance now ids s hinv
  set s1 := ids.foldl (fun acc mapId => queueMapLoad now mapId true acc) s with hs1
  set s2 : LoaderState := { s1 with
    mapLoadQueue := s1.mapLoadQueue.map
      (fun it => { it with isVisible := ids.contains it.mapId }),
    imageLoadQueue := s1.imageLoadQueue.map
      (fun it => { it with isVisible := ids.contains it.mapId }) } with hs2
  obtain ⟨pm1, _, _, _⟩ :=
    processMapQueue_accounting (sortImageLoadQueue (sortMapLoadQueue s2))
  obtain ⟨pi1, _, _, _⟩ :=
    processImageQueue_accounting (processMapQueue (sortImageLoadQueue (sortMapLoadQueue s2)))
  have hmside := processImageQueue_mapSide (processMapQueue (sortImageLoadQueue (sortMapLoadQueue s2)))
  have hADV : (processImageQueue (processMapQueue (sortImageLoadQueue
      (sortMapLoadQueue s2)))).advanceMapCount
        = (processMapQueue (sortImageLoadQueue (sortMapLoadQueue s2))).advanceMapCount :=
    congrArg (fun t => t.2.2.2.2.2.2.1) hmside
  have hIADV : (processMapQueue (sortImageLoadQueue (sortMapLoadQueue s2))).advanceImageCount
      = s2.advanceImageCount := by
    have h := processMapQueue_imageSide (sortImageLoadQueue (sortMapLoadQueue s2))
    have h2 : (processMapQueue (sortImageLoadQueue (sortMapLoadQueue s2))).advanceImageCount
        = (sortImageLoadQueue (sortMapLoadQueue s2)).advanceImageCount :=
      congrArg (fun t => t.2.2.2.2.2.2.1) h
    rw [h2]
    rfl
  constructor
  · rw [hADV, pm1]
    have : (sortImageLoadQueue (sortMapLoadQueue s2)).advanceMapCount = s1.advanceMapCount := rfl
    rw [this, f1]
  · rw [pi1, hIADV]
    have : s2.advanceImageCount = s1.advanceImageCount := rfl
    rw [this, f2]

/-- Closed witness for the amended C7 theorem: two fresh queued ids become
visible; each queue's Advance runs `2 + 1 = 3` times. -/
theorem setVisibleMaps_advance_once_per_id_plus_one_witness :
    (setVisibleMaps 10 ["a", "b"]
        { initLoaderState with
          mapLoadQueue := [⟨"a", false, 1⟩, ⟨"b", false, 2⟩] }).advanceMapCount
      = ({ initLoaderState with
            mapLoadQueue := [⟨"a", false, 1⟩, ⟨"b", false, 2⟩] } : LoaderState).advanceMapCount
          + 2 + 1 :=
  (setVisibleMaps_advance_once_per_id_plus_one 10 ["a", "b"]
      { initLoaderState with mapLoadQueue := [⟨"a", false, 1⟩, ⟨"b", false, 2⟩] }
      (by decide)
      ⟨by decide, fun _ => by decide, fun _ => by decide⟩).1

/-- C10: calling `setVisibleMaps` with an empty id list leaves all scheduler
state unchanged: no queued item's `isVisible` flag is recomputed, no queue is
re-sorted (the sort counters are unchanged) and Advance is not invoked (the
advance counters are unchanged) — the early `if (!visibleMapIds.length) return`
fires before any other statement. -/
theorem setVisibleMaps_empty_is_noop (now : Nat) (s : LoaderState) :
    setVisibleMaps now [] s = s := by
  unfold setVisibleMaps
  simp

/-! ### Ingestion pipeline: `utils/maps/add.ts` and `utils/maps/online.ts` -/

/-- Raw binary payloads (`ArrayBuffer` / `Buffer` contents). -/
abbrev Bytes := List Nat

/-- A typed marker of the current (`SSPMParsedMap`) format.  Only markers with
type tag `0` are note markers; for those the parser supplies the
`data["field0"]` grid position, modelled by `field0`. -/
structure Marker where
  position : ℚ
  type : Nat
  field0 : ℚ × ℚ
deriving Repr, DecidableEq

/-- The string table of the current format. -/
structure V2Strings where
  mapName : String
  mapID : String
  mappers : List String
deriving Repr, DecidableEq

/-- A note of the legacy (`SSPMMap`) format. -/
structure V1Note where
  position : ℚ
  x : ℚ
  y : ℚ
deriving Repr, DecidableEq

/-- The union `SSPMParsedMap | SSPMMap` produced by the two parsers,
discriminated in `add.ts` by `"markers" in map`. -/
inductive ParsedMap
  | current (strings : V2Strings) (difficulty : ℚ) (markers : List Marker)
      (audio : Option Bytes) (cover : Option Bytes)
  | legacy (name : String) (id : String) (creator : String) (difficulty : ℚ)
      (notes : List V1Note) (audio : Option Bytes) (cover : Option Bytes)
deriving Repr, DecidableEq

/-- The persistent stores of `storageUtils.ts` that `add.ts` / `online.ts`
write: the three localforage instances plus the
`downloaded_default_maps_3` flag of the global config store. -/
structure Stores where
  musicStorage : String → Option Bytes
  imageStorage : String → Option Bytes
  mapStorage : String → Option SoundSpaceMemoryMap
  downloadedDefaultMaps : Bool

/-- The ordering used by `markers.sort((a, b) => a.position - b.position)`. -/
def markerLE (a b : Marker) : Prop := a.position ≤ b.position

instance : DecidableRel markerLE := fun a b =>
  inferInstanceAs (Decidable (a.position ≤ b.position))

instance : IsTotal Marker markerLE := ⟨fun a b => le_total a.position b.position⟩

instance : IsTrans Marker markerLE := ⟨fun _ _ _ h1 h2 => le_trans h1 h2⟩

/-- The ordering used by `notes.sort((a, b) => a.position - b.position)`. -/
def v1NoteLE (a b : V1Note) : Prop := a.position ≤ b.position

instance : DecidableRel v1NoteLE := fun a b =>
  inferInstanceAs (Decidable (a.position ≤ b.position))

instance : IsTotal V1Note v1NoteLE := ⟨fun a b => le_total a.position b.position⟩

instance : IsTrans V1Note v1NoteLE := ⟨fun _ _ _ h1 h2 => le_trans h1 h2⟩

/-- Lines 40-62 of `add.ts`, note extraction: sort the markers (resp. legacy
notes) ascending by position with a stable sort, keep only type-0 note
markers, and project each to the `[timestamp, x, y]` triple. -/
def extractNotes : ParsedMap → List (ℚ × ℚ × ℚ)
  | .current _ _ markers _ _ =>
    ((List.insertionSort markerLE markers).filter (fun mk => mk.type == 0)).map
      (fun mk => (mk.position, mk.field0.1, mk.field0.2))
  | .legacy _ _ _ _ notes _ _ =>
    (List.insertionSort v1NoteLE notes).map (fun n => (n.position, n.x, n.y))

/-- `map.strings.mapName` resp. `map.name`. -/
def parsedTitle : ParsedMap → String
  | .current strings _ _ _ _ => strings.mapName
  | .legacy name _ _ _ _ _ _ => name

/-- `map.strings.mapID` resp. `map.id`. -/
def parsedId : ParsedMap → String
  | .current strings _ _ _ _ => strings.mapID
  | .legacy _ id _ _ _ _ _ => id

/-- `map.strings.mappers` resp. `[map.creator]`. -/
def parsedMappers : ParsedMap → List String
  | .current strings _ _ _ _ => strings.mappers
  | .legacy _ _ creator _ _ _ _ => [creator]

/-- `map.metadata.difficulty` resp. `map.difficulty`. -/
def parsedDifficulty : ParsedMap → ℚ
  | .current _ difficulty _ _ _ => difficulty
  | .legacy _ _ _ difficulty _ _ _ => difficulty

/-- `map.audio`. -/
def parsedAudio : ParsedMap → Option Bytes
  | .current _ _ _ audio _ => audio
  | .legacy _ _ _ _ _ audio _ => audio

/-- `map.cover`. -/
def parsedCover : ParsedMap → Option Bytes
  | .current _ _ _ _ cover => cover
  | .legacy _ _ _ _ _ _ cover => cover

/-- The `starRating`/`status` override payload passed by callers of
`addSSPMMap`. -/
structure OnlineData where
  starRating : ℚ
  status : String
deriving Repr, DecidableEq

/-- Lines 18-23 of `add.ts`: try the current-format parser; on a throw fall
back to the legacy parser, whose own throw is not caught. -/
def parseWithFallback (parseCurrent parseLegacy : Bytes → Except String (Option ParsedMap))
    (mapBytes : Bytes) : Except String (Option ParsedMap) :=
  match parseCurrent mapBytes with
  | .ok m => .ok m
  | .error _ => parseLegacy mapBytes

/-- `addSSPMMap` from `add.ts`.  The two binary parsers (`SSPMParser.parse`,
`V1SSPMParser.parse`, whose sources are outside `src/`) are parameters: each
either returns a parsed map (possibly a falsy value, `none`, covered by the
`if (!map) return` guard) or throws.  An `error` result models an uncaught
exception escaping `addSSPMMap` and carries the store state at the moment of
the throw.  Write order is that of the source: audio blob, cover blob, then —
after reading `notes[notes.length - 1][0]`, which on an empty note list is a
`TypeError` (`notes[-1]` is `undefined`) — the metadata record. -/
def writeAudioBlob (map : ParsedMap) (st : Stores) : Stores :=
  match parsedAudio map with
  | some audio =>
    { st with musicStorage := Function.update st.musicStorage (parsedId map) (some audio) }
  | none => st

def writeCoverBlob (map : ParsedMap) (st : Stores) : Stores :=
  match parsedCover map with
  | some cover =>
    { st with imageStorage := Function.update st.imageStorage (parsedId map) (some cover) }
  | none => st

/-- The record built by lines 27-76 of `add.ts` once the last-note read
succeeded: defaults `starRating = 0` / `onlineStatus = "UNRANKED"` overridden
when `onlineData` is supplied. -/
def generatedRecord (map : ParsedMap) (lastNote : ℚ × ℚ × ℚ)
    (onlineData : Option OnlineData) : SoundSpaceMemoryMap :=
  { id := parsedId map
    mappers := parsedMappers map
    title := parsedTitle map
    duration := lastNote.1
    noteCount := (extractNotes map).length
    difficulty := parsedDifficulty map
    starRating := match onlineData with | some od => od.starRating | none => 0
    onlineStatus := match onlineData with | some od => od.status | none => "UNRANKED"
    notes := extractNotes map }

def addSSPMMap (parseCurrent parseLegacy : Bytes → Except String (Option ParsedMap))
    (mapBytes : Bytes) (onlineData : Option OnlineData) (st : Stores) :
    Except (String × Stores) Stores :=
  match parseWithFallback parseCurrent parseLegacy mapBytes with
  | .error e => .error (e, st)
  | .ok none => .ok st
  | .ok (some map) =>
    match (extractNotes map).getLast? with
    | none =>
      .error ("TypeError: Cannot read properties of undefined (reading 0)",
        writeCoverBlob map (writeAudioBlob map st))
    | some lastNote =>
      .ok { writeCoverBlob map (writeAudioBlob map st) with
        mapStorage := Function.update (writeCoverBlob map (writeAudioBlob map st)).mapStorage
          (parsedId map) (some (generatedRecord map lastNote onlineData)) }

/-- One record of the remote catalog response consumed by
`downloadDefaultMapSet`. -/
structure OnlineBeatmap where
  beatmapFile : Option String
  starRating : Option ℚ
  status : Option String

/-- The `for (const map of maps)` loop of `downloadDefaultMapSet`: skip
entries without a binary URL, download and ingest the rest; an exception from
`addSSPMMap` is not caught and propagates, aborting the loop. -/
def downloadDefaultMapSetLoop (download : String → Bytes)
    (parseCurrent parseLegacy : Bytes → Except String (Option ParsedMap)) :
    List OnlineBeatmap → Stores → Except (String × Stores) Stores
  | [], st => .ok st
  | m :: rest, st =>
    match m.beatmapFile with
    | none => downloadDefaultMapSetLoop download parseCurrent parseLegacy rest st
    | some url =>
      match addSSPMMap parseCurrent parseLegacy (download url)
          (some ⟨m.starRating.getD 0, m.status.getD "UNRANKED"⟩) st with
      | .error e => .error e
      | .ok st2 => downloadDefaultMapSetLoop download parseCurrent parseLegacy rest st2

/-- `downloadDefaultMapSet` from `online.ts`, with the remote catalog response
and the binary downloader as parameters: if the one-shot flag is set, return;
otherwise ingest every candidate and finally set the flag. -/
def downloadDefaultMapSet (download : String → Bytes)
    (parseCurrent parseLegacy : Bytes → Except String (Option ParsedMap))
    (onlineMaps : List OnlineBeatmap) (st : Stores) : Except (String × Stores) Stores :=
  if st.downloadedDefaultMaps then .ok st
  else
    match downloadDefaultMapSetLoop download parseCurrent parseLegacy onlineMaps st with
    | .error e => .error e
    | .ok st2 => .ok { st2 with downloadedDefaultMaps := true }

theorem pairwise_fst_le_getLast? :
    ∀ (l : List (ℚ × ℚ × ℚ)) (lastNote : ℚ × ℚ × ℚ),
      l.Pairwise (fun a b => a.1 ≤ b.1) → l.getLast? = some lastNote →
      ∀ x ∈ l, x.1 ≤ lastNote.1 := by
  intro l
  induction l with
  | nil => intro lastNote _ hl; exact absurd hl (by simp)
  | cons a rest ih =>
    intro lastNote hpw hl x hx
    cases hrest : rest with
    | nil =>
      rw [hrest] at hl
      have ha : a = lastNote := by simpa using hl
      rw [hrest] at hx
      have hxa : x = a := by simpa using hx
      rw [hxa, ha]
    | cons b tl =>
      rw [hrest] at hl
      rw [List.getLast?_cons_cons] at hl
      have hlmem : lastNote ∈ rest := by
        obtain ⟨hne2, heq⟩ := List.mem_getLast?_eq_getLast (Option.mem_def.mpr hl)
        rw [hrest, heq]
        exact List.getLast_mem hne2
      rcases List.mem_cons.mp hx with heq | hmem
      · rw [heq]
        exact (List.pairwise_cons.mp hpw).1 _ hlmem
      · exact ih lastNote (List.pairwise_cons.mp hpw).2 (by rw [hrest]; exact hl) x hmem

theorem extractNotes_sorted (map : ParsedMap) :
    (extractNotes map).Pairwise (fun a b => a.1 ≤ b.1) := by
  cases map with
  | current strings difficulty markers audio cover =>
    have hs : (List.insertionSort markerLE markers).Pairwise markerLE :=
      List.sorted_insertionSort markerLE markers
    have hf : ((List.insertionSort markerLE markers).filter
        (fun mk => mk.type == 0)).Pairwise markerLE :=
      hs.sublist (List.filter_sublist _)
    rw [extractNotes, List.pairwise_map]
    exact hf.imp (fun h => h)
  | legacy name id creator difficulty notes audio cover =>
    have hs : (List.insertionSort v1NoteLE notes).Pairwise v1NoteLE :=
      List.sorted_insertionSort v1NoteLE notes
    rw [extractNotes, List.pairwise_map]
    exact hs.imp (fun h => h)

/-- C1: (i) when parsing yields a map with a non-empty extracted note list,
`addSSPMMap` succeeds and stores a record whose `notes` are the extracted
notes sorted ascending by timestamp, and whose `duration` is the timestamp of
the last note after sorting — an upper bound of every note timestamp; (ii) for
a map with an empty note list, `addSSPMMap` does not set `duration = 0`:
evaluating `notes[notes.length - 1][0]` throws, so the result is an error and
no metadata record is written.  Part (ii) exhibits the divergence from the
spec, which requires duration `0` and no exception for empty notes. -/
theorem duration_is_last_sorted_note_and_empty_notes_throws :
    (∀ (parseCurrent parseLegacy : Bytes → Except String (Option ParsedMap))
       (mapBytes : Bytes) (onlineData : Option OnlineData) (st : Stores) (map : ParsedMap),
      parseWithFallback parseCurrent parseLegacy mapBytes = .ok (some map) →
      extractNotes map ≠ [] →
      ∃ st2, addSSPMMap parseCurrent parseLegacy mapBytes onlineData st = .ok st2 ∧
        ∃ rec, st2.mapStorage (parsedId map) = some rec ∧
          rec.notes = extractNotes map ∧
          rec.notes.Pairwise (fun a b => a.1 ≤ b.1) ∧
          (∃ lastNote, rec.notes.getLast? = some lastNote ∧ rec.duration = lastNote.1) ∧
          ∀ n ∈ rec.notes, n.1 ≤ rec.duration) ∧
    (∀ (parseCurrent parseLegacy : Bytes → Except String (Option ParsedMap))
       (mapBytes : Bytes) (onlineData : Option OnlineData) (st : Stores) (map : ParsedMap),
      parseWithFallback parseCurrent parseLegacy mapBytes = .ok (some map) →
      extractNotes map = [] →
      ∃ e st2, addSSPMMap parseCurrent parseLegacy mapBytes onlineData st = .error (e, st2) ∧
        st2.mapStorage = st.mapStorage) := by
  constructor
  · intro parseCurrent parseLegacy mapBytes onlineData st map hparse hne
    obtain ⟨lastNote, hlast⟩ := Option.isSome_iff_exists.mp
      (by rw [List.getLast?_isSome]; exact hne)
    simp only [addSSPMMap, hparse, hlast]
    refine ⟨_, rfl, ?_⟩
    refine ⟨generatedRecord map lastNote onlineData, by simp, rfl, extractNotes_sorted map,
      ⟨lastNote, hlast, rfl⟩, ?_⟩
    intro n hn
    exact pairwise_fst_le_getLast? (extractNotes map) lastNote (extractNotes_sorted map)
      hlast n hn
  · intro parseCurrent parseLegacy mapBytes onlineData st map hparse hempty
    have hlast : (extractNotes map).getLast? = none := by rw [hempty]; rfl
    simp only [addSSPMMap, hparse, hlast]
    refine ⟨_, _, rfl, ?_⟩
    rw [writeCoverBlob, writeAudioBlob]
    cases hau : parsedAudio map <;> cases hco : parsedCover map <;> simp [hau, hco]

/-- Closed witness for the C1 theorem: a legacy-format map with notes at
timestamps 3 and 1 is stored with `duration = 3`; the same map with no notes
makes `addSSPMMap` throw. -/
theorem duration_is_last_sorted_note_and_empty_notes_throws_witness :
    (parseWithFallback (fun _ => .error "bad")
        (fun _ => .ok (some (ParsedMap.legacy "t" "m1" "c" 1 [⟨3, 0, 0⟩, ⟨1, 2, 2⟩] none none)))
        [] = .ok (some (ParsedMap.legacy "t" "m1" "c" 1 [⟨3, 0, 0⟩, ⟨1, 2, 2⟩] none none))) ∧
    extractNotes (ParsedMap.legacy "t" "m1" "c" 1 [⟨3, 0, 0⟩, ⟨1, 2, 2⟩] none none) ≠ [] ∧
    (∃ st2, addSSPMMap (fun _ => .error "bad")
        (fun _ => .ok (some (ParsedMap.legacy "t" "m1" "c" 1 [⟨3, 0, 0⟩, ⟨1, 2, 2⟩] none none)))
        [] none ⟨fun _ => none, fun _ => none, fun _ => none, false⟩ = .ok st2 ∧
      ∃ rec, st2.mapStorage "m1" = some rec ∧
        rec.notes = extractNotes (ParsedMap.legacy "t" "m1" "c" 1 [⟨3, 0, 0⟩, ⟨1, 2, 2⟩] none none) ∧
        rec.notes.Pairwise (fun a b => a.1 ≤ b.1) ∧
        (∃ lastNote, rec.notes.getLast? = some lastNote ∧ rec.duration = lastNote.1) ∧
        ∀ n ∈ rec.notes, n.1 ≤ rec.duration) :=
  ⟨rfl, by decide,
    (duration_is_last_sorted_note_and_empty_notes_throws.1 (fun _ => .error "bad")
      (fun _ => .ok (some (ParsedMap.legacy "t" "m1" "c" 1 [⟨3, 0, 0⟩, ⟨1, 2, 2⟩] none none)))
      [] none ⟨fun _ => none, fun _ => none, fun _ => none, false⟩
      (ParsedMap.legacy "t" "m1" "c" 1 [⟨3, 0, 0⟩, ⟨1, 2, 2⟩] none none) rfl (by decide))⟩

/-- C2: when both parsers reject a binary, (i) `addSSPMMap` propagates the
legacy parser's exception to its caller with every store unchanged (no store
writes happen before the parse), and (ii) `downloadDefaultMapSet` does not
catch it: the whole batch import aborts with the error — the remaining
candidates are not ingested, no store was written, and the one-shot flag is
not set — instead of skipping the bad binary and continuing. -/
theorem unparseable_binary_aborts_batch_import :
    (∀ (parseCurrent parseLegacy : Bytes → Except String (Option ParsedMap))
       (mapBytes : Bytes) (onlineData : Option OnlineData) (st : Stores) (e1 e2 : String),
      parseCurrent mapBytes = .error e1 → parseLegacy mapBytes = .error e2 →
      addSSPMMap parseCurrent parseLegacy mapBytes onlineData st = .error (e2, st)) ∧
    (∀ (download : String → Bytes)
       (parseCurrent parseLegacy : Bytes → Except String (Option ParsedMap))
       (badMap goodMap : OnlineBeatmap) (url : String) (st : Stores) (e1 e2 : String),
      st.downloadedDefaultMaps = false →
      badMap.beatmapFile = some url →
      parseCurrent (download url) = .error e1 →
      parseLegacy (download url) = .error e2 →
      downloadDefaultMapSet download parseCurrent parseLegacy [badMap, goodMap] st
        = .error (e2, st)) := by
  constructor
  · intro parseCurrent parseLegacy mapBytes onlineData st e1 e2 h1 h2
    simp only [addSSPMMap, parseWithFallback, h1, h2]
  · intro download parseCurrent parseLegacy badMap goodMap url st e1 e2 hflag hurl h1 h2
    rw [downloadDefaultMapSet, if_neg (by rw [hflag]; exact Bool.false_ne_true)]
    simp only [downloadDefaultMapSetLoop, hurl, addSSPMMap, parseWithFallback, h1, h2]

/-- Closed witness for the C2 theorem: with both parsers failing on the
downloaded binary, the two-candidate batch import returns the error and the
stores and flag are untouched. -/
theorem unparseable_binary_aborts_batch_import_witness :
    downloadDefaultMapSet (fun _ => []) (fun _ => .error "not sspm v2")
        (fun _ => .error "not sspm v1")
        [⟨some "u", none, none⟩, ⟨some "v", some 3, some "RANKED"⟩]
        ⟨fun _ => none, fun _ => none, fun _ => none, false⟩
      = .error ("not sspm v1", ⟨fun _ => none, fun _ => none, fun _ => none, false⟩) :=
  unparseable_binary_aborts_batch_import.2 (fun _ => []) (fun _ => .error "not sspm v2")
    (fun _ => .error "not sspm v1") ⟨some "u", none, none⟩ ⟨some "v", some 3, some "RANKED"⟩
    "u" ⟨fun _ => none, fun _ => none, fun _ => none, false⟩ "not sspm v2" "not sspm v1"
    rfl rfl rfl rfl

/-! ### Playback service: `mapPlayerService.ts` -/

/-- The read side of the three stores as `mapPlayerService.ts` sees them: a
read either throws (`error`) or yields the stored value (`none` for an absent
entry). -/
structure PlayerStores where
  mapStorage : String → Except Unit (Option SoundSpaceMemoryMap)
  musicStorage : String → Except Unit (Option Bytes)
  imageStorage : String → Except Unit (Option Bytes)

/-- The value `getMapData` resolves: either a real record (from the cache or
the metadata store) or the fabricated fallback object
`{ title: mapId, description: "No description available" }` cast to the
record type. -/
inductive MapDataResult
  | found (record : SoundSpaceMemoryMap)
  | fallback (title : String)
deriving Repr, DecidableEq

/-- `getMapData` from `mapPlayerService.ts`: cache first (a `null` sentinel or
absence are both falsy), then the metadata store (caching a hit; a throw is
caught and logged), and finally — when no record was found — the fabricated
minimal fallback record with the id as title.  Returns the resolved value and
the updated cache. -/
def getMapData (cache : String → Option (Option SoundSpaceMemoryMap)) (stores : PlayerStores)
    (mapId : String) :
    MapDataResult × (String → Option (Option SoundSpaceMemoryMap)) :=
  match cache mapId with
  | some (some record) => (.found record, cache)
  | _ =>
    match stores.mapStorage mapId with
    | .ok (some record) => (.found record, Function.update cache mapId (some (some record)))
    | _ => (.fallback mapId, cache)

/-- `loadMusicData` from `mapPlayerService.ts`: `none` models the `null`
return (absent entry, empty buffer, or a caught store error); `some` models
the created object URL, carrying the bytes it wraps. -/
def loadMusicData (stores : PlayerStores) (mapId : String) : Option Bytes :=
  match stores.musicStorage mapId with
  | .ok (some item) => if item.length = 0 then none else some item
  | _ => none

/-- `loadImageData` from `mapPlayerService.ts`. -/
def loadImageData (stores : PlayerStores) (mapId : String) : Option Bytes :=
  match stores.imageStorage mapId with
  | .ok (some image) => if image.length = 0 then none else some image
  | _ => none

/-- The `setupPlayback` effect: what `runtimeSettings`/`audioState` receive. -/
structure PlaybackSetup where
  selectedSong : MapDataResult
  music : Bytes
  image : Option Bytes
deriving Repr, DecidableEq

/-- `selectMap` from `mapPlayerService.ts`: resolve the record (cache or
store), load music (early return — no playback — when it is unavailable),
load the optional image, and set up playback.  Returns the playback setup (or
`none` when playback was not started) together with the updated record
cache. -/
def selectMap (cache : String → Option (Option SoundSpaceMemoryMap)) (stores : PlayerStores)
    (mapId : String) :
    Option PlaybackSetup × (String → Option (Option SoundSpaceMemoryMap)) :=
  match getMapData cache stores mapId with
  | (mapData, cache2) =>
    match loadMusicData stores mapId with
    | none => (none, cache2)
    | some music => (some ⟨mapData, music, loadImageData stores mapId⟩, cache2)

/-- C6 (counterexample to the claim as stated): for an id with no metadata
record anywhere but with audio bytes in the music store, `selectMap` does not
treat the map as nonexistent: it fabricates the fallback record (title = id)
and proceeds to playback with it. -/
theorem selectMap_missing_metadata_counterexample :
    (selectMap (fun _ => none)
        ⟨fun _ => .ok none, fun _ => .ok (some [1]), fun _ => .ok none⟩ "m1").1
      = some ⟨.fallback "m1", [1], none⟩ := rfl

/-- C6 (amended): `selectMap` resolves metadata via cache-or-store, but when
no metadata record exists it does not stop: `getMapData` fabricates the
minimal fallback record with the id as title (writing nothing to the cache),
and playback proceeds with that fallback record whenever the audio blob
loads — playback is aborted only when the music data is unavailable. -/
theorem selectMap_fallback_on_missing_metadata
    (cache : String → Option (Option SoundSpaceMemoryMap)) (stores : PlayerStores)
    (mapId : String)
    (hc : ∀ r, cache mapId ≠ some (some r))
    (hs : ∀ r, stores.mapStorage mapId ≠ .ok (some r)) :
    getMapData cache stores mapId = (.fallback mapId, cache) ∧
    (loadMusicData stores mapId = none → (selectMap cache stores mapId).1 = none) ∧
    (∀ music, loadMusicData stores mapId = some music →
      (selectMap cache stores mapId).1
        = some ⟨.fallback mapId, music, loadImageData stores mapId⟩) := by
  have hget : getMapData cache stores mapId = (.fallback mapId, cache) := by
    rw [getMapData]
    cases hcm : cache mapId with
    | some v =>
      cases v with
      | some r => exact absurd hcm (hc r)
      | none =>
        cases hsm : stores.mapStorage mapId with
        | ok v2 =>
          cases v2 with
          | some r => exact absurd hsm (hs r)
          | none => rfl
        | error e => rfl
    | none =>
      cases hsm : stores.mapStorage mapId with
      | ok v2 =>
        cases v2 with
        | some r => exact absurd hsm (hs r)
        | none => rfl
      | error e => rfl
  refine ⟨hget, ?_, ?_⟩
  · intro hm
    rw [selectMap, hget, hm]
  · intro music hm
    rw [selectMap, hget, hm]

/-- Closed witness for the amended C6 theorem at the concrete input of the
counterexample. -/
theorem selectMap_fallback_on_missing_metadata_witness :
    getMapData (fun _ => none)
        ⟨fun _ => .ok none, fun _ => .ok (some [1]), fun _ => .ok none⟩ "m1"
      = (.fallback "m1", fun _ => none) :=
  (selectMap_fallback_on_missing_metadata (fun _ => none)
      ⟨fun _ => .ok none, fun _ => .ok (some [1]), fun _ => .ok none⟩ "m1"
      (fun r => by simp) (fun r => by simp)).1

/-! ### Search engine: `searchUtils.ts`

JavaScript numbers are modelled as exact rationals extended with NaN and the
infinities.  The decimal literals the search engine actually compares are
exactly representable, so float rounding is not modelled. -/

/-- A JavaScript number as produced by `parseFloat` / `ToNumber`. -/
inductive JsNum
  | nan
  | posInf
  | negInf
  | fin (q : ℚ)
deriving Repr, DecidableEq

/-- The JavaScript `<` relational comparison on two numbers: any comparison
involving NaN is false. -/
def jsNumLt : JsNum → JsNum → Bool
  | .nan, _ => false
  | _, .nan => false
  | .negInf, .negInf => false
  | .negInf, _ => true
  | _, .negInf => false
  | .posInf, _ => false
  | .fin _, .posInf => true
  | .fin a, .fin b => decide (a < b)

/-- JavaScript numeric equality: NaN equals nothing. -/
def jsNumEq : JsNum → JsNum → Bool
  | .nan, _ => false
  | _, .nan => false
  | .posInf, .posInf => true
  | .negInf, .negInf => true
  | .posInf, .negInf => false
  | .negInf, .posInf => false
  | .posInf, .fin _ => false
  | .fin _, .posInf => false
  | .negInf, .fin _ => false
  | .fin _, .negInf => false
  | .fin a, .fin b => a == b

/-- The JavaScript `\s` / trim whitespace class (the characters that occur in
practice). -/
def jsIsWhitespace (c : Char) : Bool :=
  c == ' ' || c == '\t' || c == '\n' || c == '\r' ||
  c == '\x0b' || c == '\x0c' || c == ' ' || c == '﻿'

def digitsToNat (ds : List Char) : Nat :=
  ds.foldl (fun acc c => acc * 10 + (c.toNat - '0'.toNat)) 0

def startsWithChars : List Char → List Char → Bool
  | _, [] => true
  | [], _ :: _ => false
  | a :: as, b :: bs => a == b && startsWithChars as bs

/-- Consume a well-formed exponent part (`e`/`E`, optional sign, at least one
digit) and apply it; otherwise consume nothing. -/
def applyExponent (mantissa : ℚ) : List Char → ℚ × List Char
  | e :: tl =>
    if e == 'e' || e == 'E' then
      match tl with
      | '+' :: tl2 =>
        match tl2.takeWhile Char.isDigit with
        | [] => (mantissa, e :: tl)
        | ds => (mantissa * (10 : ℚ) ^ digitsToNat ds, tl2.dropWhile Char.isDigit)
      | '-' :: tl2 =>
        match tl2.takeWhile Char.isDigit with
        | [] => (mantissa, e :: tl)
        | ds => (mantissa / (10 : ℚ) ^ digitsToNat ds, tl2.dropWhile Char.isDigit)
      | tl2 =>
        match tl2.takeWhile Char.isDigit with
        | [] => (mantissa, e :: tl)
        | ds => (mantissa * (10 : ℚ) ^ digitsToNat ds, tl2.dropWhile Char.isDigit)
    else (mantissa, e :: tl)
  | [] => (mantissa, [])

/-- Parse the longest `digits [. digits] [exponent]` prefix.  Returns `none`
when no digit is present, otherwise the value and the unconsumed suffix. -/
def parseDecimalPrefix (cs : List Char) : Option (ℚ × List Char) :=
  match cs.takeWhile Char.isDigit, cs.dropWhile Char.isDigit with
  | intDigits, rest1 =>
    match (match rest1 with
           | '.' :: tl => (tl.takeWhile Char.isDigit, tl.dropWhile Char.isDigit)
           | _ => (([] : List Char), rest1)) with
    | (fracDigits, rest2) =>
      if intDigits = [] ∧ fracDigits = [] then none
      else
        some (applyExponent
          ((digitsToNat intDigits : ℚ) +
            (digitsToNat fracDigits : ℚ) / (10 : ℚ) ^ fracDigits.length)
          rest2)

/-- `parseFloat` after the leading whitespace was skipped: optional sign, then
`Infinity` or the longest decimal-literal prefix; NaN when no digit is
found. -/
def parseFloatSigned (cs : List Char) (neg : Bool) : JsNum :=
  if startsWithChars cs "Infinity".toList then (if neg then .negInf else .posInf)
  else
    match parseDecimalPrefix cs with
    | none => .nan
    | some (q, _) => .fin (if neg then -q else q)

/-- `parseFloat` from JavaScript. -/
def parseFloatJS (s : String) : JsNum :=
  match s.toList.dropWhile jsIsWhitespace with
  | '+' :: tl => parseFloatSigned tl false
  | '-' :: tl => parseFloatSigned tl true
  | tl => parseFloatSigned tl false

def isHexDigitChar (c : Char) : Bool :=
  c.isDigit || ('a' ≤ c && c ≤ 'f') || ('A' ≤ c && c ≤ 'F')

def hexDigitVal (c : Char) : Nat :=
  if c.isDigit then c.toNat - '0'.toNat
  else if 'a' ≤ c && c ≤ 'f' then c.toNat - 'a'.toNat + 10
  else c.toNat - 'A'.toNat + 10

/-- A full radix-integer literal body: at least one digit, all digits. -/
def parseRadixAll (radix : Nat) (isDig : Char → Bool) (val : Char → Nat)
    (tl : List Char) : JsNum :=
  if tl ≠ [] ∧ tl.all isDig then
    .fin ((tl.foldl (fun acc c => acc * radix + val c) 0 : Nat) : ℚ)
  else .nan

/-- The signed part of `ToNumber` for strings: `Infinity` or a decimal literal
matching the whole remaining input. -/
def toNumberSigned (cs : List Char) (neg : Bool) : JsNum :=
  if cs = "Infinity".toList then (if neg then .negInf else .posInf)
  else
    match parseDecimalPrefix cs with
    | none => .nan
    | some (q, rest) => if rest = [] then .fin (if neg then -q else q) else .nan

/-- JavaScript `ToNumber` on a string (the coercion used by `==`, `<` and `>`
when one side is a number): trim, empty means `0`, a radix prefix (`0x`,
`0b`, `0o`) introduces an unsigned integer literal, otherwise an optional
sign followed by `Infinity` or a decimal literal; anything else is NaN. -/
def jsStringToNumber (s : String) : JsNum :=
  match ((s.toList.dropWhile jsIsWhitespace).reverse.dropWhile jsIsWhitespace).reverse with
  | [] => .fin 0
  | '0' :: 'x' :: tl => parseRadixAll 16 isHexDigitChar hexDigitVal tl
  | '0' :: 'X' :: tl => parseRadixAll 16 isHexDigitChar hexDigitVal tl
  | '0' :: 'b' :: tl => parseRadixAll 2 (fun c => c == '0' || c == '1') (fun c => c.toNat - '0'.toNat) tl
  | '0' :: 'B' :: tl => parseRadixAll 2 (fun c => c == '0' || c == '1') (fun c => c.toNat - '0'.toNat) tl
  | '0' :: 'o' :: tl => parseRadixAll 8 (fun c => '0' ≤ c && c ≤ '7') (fun c => c.toNat - '0'.toNat) tl
  | '0' :: 'O' :: tl => parseRadixAll 8 (fun c => '0' ≤ c && c ≤ '7') (fun c => c.toNat - '0'.toNat) tl
  | '+' :: tl => toNumberSigned tl false
  | '-' :: tl => toNumberSigned tl true
  | tl => toNumberSigned tl false

/-- ASCII lower-casing, as `toLowerCase()` acts on the identifiers and names
that occur here. -/
def jsToLower (s : String) : String := String.mk (s.toList.map Char.toLower)

/-- A JavaScript value reachable from `map[field]` in `getMapValueByField`. -/
inductive JSVal
  | vStr (s : String)
  | vNum (q : ℚ)
  | vStrList (xs : List String)
  | vNotes (notes : List (ℚ × ℚ × ℚ))
  | vUndefined
deriving Repr, DecidableEq

/-- Decimal rendering of a rational as JavaScript renders the numbers inside
note triples; exact for integral values, which is the case that occurs. -/
def ratToJsString (q : ℚ) : String :=
  if q.den = 1 then toString q.num else toString q.num ++ "/" ++ toString q.den

/-- `Array.prototype.toString` of the `notes` array of triples. -/
def notesToJsString (notes : List (ℚ × ℚ × ℚ)) : String :=
  String.intercalate "," (notes.map
    (fun n => ratToJsString n.1 ++ "," ++ ratToJsString n.2.1 ++ "," ++ ratToJsString n.2.2))

/-- `ToNumber` of a `map[field]` value (arrays convert via their
comma-joined string). -/
def jsValToNumber : JSVal → JsNum
  | .vStr s => jsStringToNumber s
  | .vNum q => .fin q
  | .vStrList xs => jsStringToNumber (String.intercalate "," xs)
  | .vNotes notes => jsStringToNumber (notesToJsString notes)
  | .vUndefined => .nan

/-- JavaScript loose equality `value == filterValue` where the right side is
always a string: a number compares via `ToNumber` of the string, an array via
its joined string, `undefined` equals no string. -/
def jsLooseEqString : JSVal → String → Bool
  | .vStr s, t => s == t
  | .vNum q, t => jsNumEq (.fin q) (jsStringToNumber t)
  | .vStrList xs, t => String.intercalate "," xs == t
  | .vNotes notes, t => notesToJsString notes == t
  | .vUndefined, _ => false

/-- `evaluateFilter` from `searchUtils.ts`: `=` is case-insensitive string
equality for string values and loose equality otherwise; `>`/`<` compare the
value against `parseFloat(filterValue)` with JavaScript relational
semantics (both sides coerced to numbers; NaN matches nothing); any other
operator matches. -/
def evaluateFilter (value : JSVal) (operator : String) (filterValue : String) : Bool :=
  if operator = "=" then
    match value with
    | .vStr s => jsToLower s == jsToLower filterValue
    | v => jsLooseEqString v filterValue
  else if operator = ">" then jsNumLt (parseFloatJS filterValue) (jsValToNumber value)
  else if operator = "<" then jsNumLt (jsValToNumber value) (parseFloatJS filterValue)
  else true

/-- The `fieldMap` alias table of `getMapValueByField`; unknown fields pass
through literally. -/
def fieldMapLookup (field : String) : String :=
  if field = "star" then "starRating"
  else if field = "author" then "mappers"
  else if field = "diff" then "difficulty"
  else if field = "name" then "title"
  else if field = "id" then "id"
  else if field = "status" then "onlineStatus"
  else field

/-- The dynamic property read `map[actualField]`: unknown keys yield
`undefined`. -/
def mapIndex (m : SoundSpaceMemoryMap) (key : String) : JSVal :=
  if key = "id" then .vStr m.id
  else if key = "mappers" then .vStrList m.mappers
  else if key = "title" then .vStr m.title
  else if key = "duration" then .vNum m.duration
  else if key = "noteCount" then .vNum (m.noteCount : ℚ)
  else if key = "difficulty" then .vNum m.difficulty
  else if key = "starRating" then .vNum m.starRating
  else if key = "onlineStatus" then .vStr m.onlineStatus
  else if key = "notes" then .vNotes m.notes
  else .vUndefined

/-- `getMapValueByField` from `searchUtils.ts`. -/
def getMapValueByField (m : SoundSpaceMemoryMap) (field : String) : JSVal :=
  mapIndex m (fieldMapLookup field)

/-- `SearchFilter` from `searchUtils.ts`. -/
structure SearchFilter where
  field : String
  operator : String
  value : String
deriving Repr, DecidableEq

/-- `ParsedQuery` from `searchUtils.ts`. -/
structure ParsedQuery where
  filters : List SearchFilter
  text : String
deriving Repr, DecidableEq

def isUpperAZ (c : Char) : Bool := 'A' ≤ c && c ≤ 'Z'

def isOpChar (c : Char) : Bool := c == '=' || c == '>' || c == '<'

/-- Match `([A-Z]+)(=|>|<)([^\s]+)` anchored at the head of the input: the
greedy uppercase run, an operator, and the greedy non-whitespace run (no
backtracking can change these groups).  Returns the groups and the unconsumed
suffix. -/
def matchCommandAt (cs : List Char) : Option ((List Char × Char × List Char) × List Char) :=
  match cs with
  | [] => none
  | c :: _ =>
    if isUpperAZ c then
      match cs.dropWhile isUpperAZ with
      | [] => none
      | op :: rest2 =>
        if isOpChar op then
          match rest2.takeWhile (fun d => !jsIsWhitespace d) with
          | [] => none
          | v => some ((cs.takeWhile isUpperAZ, op, v),
              rest2.dropWhile (fun d => !jsIsWhitespace d))
        else none
    else none

theorem matchCommandAt_remaining_lt {cs : List Char}
    {g : List Char × Char × List Char} {rem : List Char}
    (h : matchCommandAt cs = some (g, rem)) : rem.length < cs.length := by
  match cs with
  | [] => exact absurd h (by simp [matchCommandAt])
  | c :: rest =>
    rw [matchCommandAt] at h
    by_cases hu : isUpperAZ c = true
    · rw [if_pos hu] at h
      cases hdw : (c :: rest).dropWhile isUpperAZ with
      | nil => rw [hdw] at h; exact absurd h (by simp)
      | cons op rest2 =>
        rw [hdw] at h
        dsimp only [] at h
        by_cases hop : isOpChar op = true
        · rw [if_pos hop] at h
          cases htw : rest2.takeWhile (fun d => !jsIsWhitespace d) with
          | nil => rw [htw] at h; exact absurd h (by simp)
          | cons v0 vtl =>
            rw [htw] at h
            dsimp only [] at h
            have hrem : rem = rest2.dropWhile (fun d => !jsIsWhitespace d) := by
              have := (Option.some_inj.mp h)
              exact (congrArg Prod.snd this).symm
            have h1 : rem.length ≤ rest2.length := by
              rw [hrem]
              exact (List.dropWhile_sublist _).length_le
            have h2 : (op :: rest2).length ≤ (c :: rest).length := by
              rw [← hdw]
              exact (List.dropWhile_sublist _).length_le
            simp only [List.length_cons] at h2 ⊢
            omega
        · rw [if_neg hop] at h
          exact absurd h (by simp)
    · rw [if_neg hu] at h
      exact absurd h (by simp)

/-- The scan loop of the global regex match: try each position left to right,
continuing after the end of every match.  Each step consumes at least one
character (`matchCommandAt_remaining_lt`), so a fuel of the input length never
runs out; fuel only bounds the recursion structurally. -/
def findCommandsAux : Nat → List Char → List (List Char × Char × List Char)
  | 0, _ => []
  | _, [] => []
  | fuel + 1, c :: rest =>
    match matchCommandAt (c :: rest) with
    | some (groups, remaining) => groups :: findCommandsAux fuel remaining
    | none => findCommandsAux fuel rest

/-- The global regex scan `query.match(/([A-Z]+)(=|>|<)([^\s]+)/g)`. -/
def findCommands (cs : List Char) : List (List Char × Char × List Char) :=
  findCommandsAux cs.length cs

/-- The non-global re-match `command.match(/([A-Z]+)(=|>|<)([^\s]+)/)`: the
first match anywhere in the string. -/
def matchCommandAnywhere (cs : List Char) : Option (List Char × Char × List Char) :=
  match cs with
  | [] => none
  | c :: rest =>
    match matchCommandAt (c :: rest) with
    | some (groups, _) => some groups
    | none => matchCommandAnywhere rest

/-- The full matched substring of a command. -/
def commandChars (g : List Char × Char × List Char) : List Char :=
  g.1 ++ g.2.1 :: g.2.2

/-- `String.prototype.replace` with a plain string pattern and empty
replacement: remove the first occurrence. -/
def removeFirstOccurrence (pat : List Char) : List Char → List Char
  | [] => []
  | h :: t =>
    if startsWithChars (h :: t) pat then (h :: t).drop pat.length
    else h :: removeFirstOccurrence pat t

/-- `String.prototype.trim`. -/
def jsTrimChars (cs : List Char) : List Char :=
  ((cs.dropWhile jsIsWhitespace).reverse.dropWhile jsIsWhitespace).reverse

/-- `parseSearchQuery` from `searchUtils.ts`: extract every
`FIELD<op>VALUE` command, remove each matched substring (first occurrence)
from the free-text remainder, re-match each command to build its filter with
the lower-cased field, and trim the remainder. -/
def parseSearchQuery (query : String) : ParsedQuery :=
  if query = "" then ⟨[], ""⟩
  else
    ⟨(findCommands query.toList).foldl (fun acc cmd =>
        match matchCommandAnywhere (commandChars cmd) with
        | some (f, op, v) =>
          acc ++ [⟨jsToLower (String.mk f), String.mk [op], String.mk v⟩]
        | none => acc) [],
      String.mk (jsTrimChars ((findCommands query.toList).foldl
        (fun t cmd => removeFirstOccurrence (commandChars cmd) t) query.toList))⟩

/-- Substring containment, `String.prototype.includes`. -/
def containsSub (hay pat : List Char) : Bool :=
  match hay with
  | [] => startsWithChars [] pat
  | _ :: t => startsWithChars hay pat || containsSub t pat

/-- `mapMatchesSearch` from `searchUtils.ts`: every filter must hold, and a
non-empty free-text term must occur (case-insensitively) in the searchable
text `` `${map.title || ""} ${map.mappers || ""}` `` (the mappers array
renders as its comma-joined string). -/
def mapMatchesSearch (m : SoundSpaceMemoryMap) (pq : ParsedQuery) : Bool :=
  (pq.filters.all (fun f => evaluateFilter (getMapValueByField m f.field) f.operator f.value)) &&
  (if pq.text ≠ "" then
    containsSub
      (jsToLower (m.title ++ " " ++ String.intercalate "," m.mappers)).toList
      (jsToLower pq.text).toList
  else true)

/-- `SEARCH_BATCH_SIZE` from `searchUtils.ts`. -/
def SEARCH_BATCH_SIZE : Nat := 20

/-- The environment `searchAllMaps` reads: the Load Scheduler's record cache
and the metadata store (a read either throws or yields the stored record). -/
structure SearchEnv where
  mapCache : String → Option (Option SoundSpaceMemoryMap)
  mapStorage : String → Except Unit (Option SoundSpaceMemoryMap)

/-- The secondary search-only cache (`searchCache`); only records read from
storage are ever stored. -/
abbrev SearchCache := String → Option SoundSpaceMemoryMap

/-- The per-id resolution of `searchAllMaps`: main cache (a `null` sentinel is
falsy), then search cache, then a storage read whose error is caught and makes
the id resolve to nothing.  Returns the resolved record and the value to add
to the search cache (`some` exactly when storage was read successfully). -/
def resolveForSearch (env : SearchEnv) (sc : SearchCache) (mapId : String) :
    Option SoundSpaceMemoryMap × Option SoundSpaceMemoryMap :=
  match env.mapCache mapId with
  | some (some m) => (some m, none)
  | _ =>
    match sc mapId with
    | some m => (some m, none)
    | none =>
      match env.mapStorage mapId with
      | .ok (some m) => (some m, some m)
      | _ => (none, none)

/-- Apply the deferred `searchCache.set(mapId, map)` write, if any. -/
def applyWrite (scAcc : SearchCache) (mapId : String) :
    Option SoundSpaceMemoryMap → SearchCache
  | some w => Function.update scAcc mapId (some w)
  | none => scAcc

/-- One `Promise.all` batch of `searchAllMaps`.  All batch callbacks read the
caches synchronously before their first `await`, so every read in a batch
sees the batch-start search cache (`scRead`) while the writes accumulate in
`scAcc`; results keep batch order and drop unresolved ids. -/
def processSearchBatch (env : SearchEnv) (pq : ParsedQuery) (scRead : SearchCache) :
    List String → SearchCache → List String × SearchCache
  | [], scAcc => ([], scAcc)
  | mapId :: rest, scAcc =>
    match resolveForSearch env scRead mapId with
    | (some m, wrote) =>
      match processSearchBatch env pq scRead rest (applyWrite scAcc mapId wrote) with
      | (ms, scFin) => ((if mapMatchesSearch m pq then mapId :: ms else ms), scFin)
    | (none, _) => processSearchBatch env pq scRead rest scAcc

/-- The batch loop of `searchAllMaps`: fixed-size batches with a cooperative
yield between batches (the yield and the optional progress callback have no
effect on the computed state and are not represented). -/
def searchBatchesGo (env : SearchEnv) (pq : ParsedQuery) :
    List String → SearchCache → List String × SearchCache
  | [], sc => ([], sc)
  | id0 :: rest, sc =>
    match processSearchBatch env pq sc ((id0 :: rest).take SEARCH_BATCH_SIZE) sc with
    | (matched, sc2) =>
      match searchBatchesGo env pq ((id0 :: rest).drop SEARCH_BATCH_SIZE) sc2 with
      | (matchedRest, sc3) => (matched ++ matchedRest, sc3)
termination_by ids _ => ids.length
decreasing_by
  simp [SEARCH_BATCH_SIZE]
  omega

/-- `searchAllMaps` from `searchUtils.ts`: an empty query short-circuits to
all ids; otherwise parse the query and scan all ids in batches.  Returns the
matched ids and the final search cache. -/
def searchAllMaps (env : SearchEnv) (allMapIds : List String) (query : String)
    (sc : SearchCache) : List String × SearchCache :=
  if query = "" then (allMapIds, sc)
  else searchBatchesGo env (parseSearchQuery query) allMapIds sc

/-- Coherence of the search cache with the metadata store: the cache only
holds values the store returns.  It holds initially (the cache starts empty)
and every write of `searchAllMaps` preserves it. -/
def SearchCacheCoherent (env : SearchEnv) (sc : SearchCache) : Prop :=
  ∀ mapId m, sc mapId = some m → env.mapStorage mapId = .ok (some m)

/-- The cache-independent record an id resolves to: the scheduler cache's
non-null entry, else the store's record, else nothing. -/
def recordForSearch (env : SearchEnv) (mapId : String) : Option SoundSpaceMemoryMap :=
  match env.mapCache mapId with
  | some (some m) => some m
  | _ =>
    match env.mapStorage mapId with
    | .ok (some m) => some m
    | _ => none

theorem resolveForSearch_eq_recordForSearch (env : SearchEnv) (sc : SearchCache)
    (hco : SearchCacheCoherent env sc) (mapId : String) :
    (resolveForSearch env sc mapId).1 = recordForSearch env mapId := by
  rw [resolveForSearch, recordForSearch]
  cases hc : env.mapCache mapId with
  | some v =>
    cases v with
    | some m => rfl
    | none =>
      cases hsc : sc mapId with
      | some m => rw [hco mapId m hsc]
      | none => cases env.mapStorage mapId with
        | ok v2 => cases v2 <;> rfl
        | error e => rfl
  | none =>
    cases hsc : sc mapId with
    | some m => rw [hco mapId m hsc]
    | none => cases env.mapStorage mapId with
      | ok v2 => cases v2 <;> rfl
      | error e => rfl

theorem resolveForSearch_wrote_coherent (env : SearchEnv) (sc : SearchCache) (mapId : String)
    {w : SoundSpaceMemoryMap} (h : (resolveForSearch env sc mapId).2 = some w) :
    env.mapStorage mapId = .ok (some w) := by
  rw [resolveForSearch] at h
  cases hc : env.mapCache mapId with
  | some v =>
    cases v with
    | some m => rw [hc] at h; exact absurd h (by simp)
    | none =>
      rw [hc] at h
      dsimp only [] at h
      cases hsc : sc mapId with
      | some m => rw [hsc] at h; exact absurd h (by simp)
      | none =>
        rw [hsc] at h
        dsimp only [] at h
        cases hsm : env.mapStorage mapId with
        | ok v2 =>
          cases v2 with
          | some m =>
            rw [hsm] at h
            dsimp only [] at h
            rw [Option.some_inj.mp h]
          | none => rw [hsm] at h; exact absurd h (by simp)
        | error e => rw [hsm] at h; exact absurd h (by simp)
  | none =>
    rw [hc] at h
    dsimp only [] at h
    cases hsc : sc mapId with
    | some m => rw [hsc] at h; exact absurd h (by simp)
    | none =>
      rw [hsc] at h
      dsimp only [] at h
      cases hsm : env.mapStorage mapId with
      | ok v2 =>
        cases v2 with
        | some m =>
          rw [hsm] at h
          dsimp only [] at h
          rw [Option.some_inj.mp h]
        | none => rw [hsm] at h; exact absurd h (by simp)
      | error e => rw [hsm] at h; exact absurd h (by simp)

/-- The effective per-id match predicate of a search. -/
def searchPred (env : SearchEnv) (pq : ParsedQuery) (mapId : String) : Bool :=
  ((recordForSearch env mapId).map (fun m => mapMatchesSearch m pq)).getD false

theorem applyWrite_coherent (env : SearchEnv) (scAcc : SearchCache) (mapId : String)
    (wrote : Option SoundSpaceMemoryMap) (hacc : SearchCacheCoherent env scAcc)
    (hw : ∀ w, wrote = some w → env.mapStorage mapId = .ok (some w)) :
    SearchCacheCoherent env (applyWrite scAcc mapId wrote) := by
  cases wrote with
  | none => exact hacc
  | some w =>
    intro j mj hj
    rw [applyWrite] at hj
    by_cases hjid : j = mapId
    · rw [hjid] at hj ⊢
      rw [Function.update_same] at hj
      rw [← Option.some_inj.mp hj]
      exact hw w rfl
    · rw [Function.update_noteq hjid] at hj
      exact hacc j mj hj

theorem processSearchBatch_characterization (env : SearchEnv) (pq : ParsedQuery)
    (scRead : SearchCache) (hread : SearchCacheCoherent env scRead) :
    ∀ (batch : List String) (scAcc : SearchCache), SearchCacheCoherent env scAcc →
      (processSearchBatch env pq scRead batch scAcc).1 = batch.filter (searchPred env pq) ∧
      SearchCacheCoherent env (processSearchBatch env pq scRead batch scAcc).2 := by
  intro batch
  induction batch with
  | nil => intro scAcc hacc; exact ⟨rfl, hacc⟩
  | cons mapId rest ih =>
    intro scAcc hacc
    have hres := resolveForSearch_eq_recordForSearch env scRead hread mapId
    cases hr : resolveForSearch env scRead mapId with
    | mk rv wrote =>
      rw [hr] at hres
      cases rv with
      | some m =>
        have hrec : recordForSearch env mapId = some m := hres.symm
        have hacc2 : SearchCacheCoherent env (applyWrite scAcc mapId wrote) :=
          applyWrite_coherent env scAcc mapId wrote hacc
            (fun w hw => resolveForSearch_wrote_coherent env scRead mapId (by rw [hr, hw]))
        obtain ⟨ih1, ih2⟩ := ih (applyWrite scAcc mapId wrote) hacc2
        rw [processSearchBatch, hr]
        dsimp only []
        cases hrest : processSearchBatch env pq scRead rest (applyWrite scAcc mapId wrote) with
        | mk ms scFin =>
          rw [hrest] at ih1 ih2
          dsimp only [] at ih1 ih2 ⊢
          refine ⟨?_, ih2⟩
          rw [List.filter_cons]
          have hpred : searchPred env pq mapId = mapMatchesSearch m pq := by
            rw [searchPred, hrec]
            rfl
          rw [hpred, ih1]
      | none =>
        have hrec : recordForSearch env mapId = none := hres.symm
        obtain ⟨ih1, ih2⟩ := ih scAcc hacc
        rw [processSearchBatch, hr]
        dsimp only []
        refine ⟨?_, ih2⟩
        rw [List.filter_cons]
        have hpred : searchPred env pq mapId = false := by
          rw [searchPred, hrec]
          rfl
        rw [hpred, ih1]
        simp

theorem searchBatchesGo_characterization (env : SearchEnv) (pq : ParsedQuery) :
    ∀ (n : Nat) (ids : List String) (sc : SearchCache), ids.length ≤ n →
      SearchCacheCoherent env sc →
      (searchBatchesGo env pq ids sc).1 = ids.filter (searchPred env pq) ∧
      SearchCacheCoherent env (searchBatchesGo env pq ids sc).2 := by
  intro n
  induction n with
  | zero =>
    intro ids sc hlen hco
    have : ids = [] := List.length_eq_zero.mp (Nat.le_zero.mp hlen)
    rw [this, searchBatchesGo]
    exact ⟨rfl, hco⟩
  | succ n ih =>
    intro ids sc hlen hco
    cases ids with
    | nil => rw [searchBatchesGo]; exact ⟨rfl, hco⟩
    | cons id0 rest =>
      obtain ⟨b1, b2⟩ := processSearchBatch_characterization env pq sc hco
        ((id0 :: rest).take SEARCH_BATCH_SIZE) sc hco
      rw [searchBatchesGo]
      cases hbatch : processSearchBatch env pq sc ((id0 :: rest).take SEARCH_BATCH_SIZE) sc with
      | mk matched sc2 =>
        rw [hbatch] at b1 b2
        dsimp only [] at b1 b2 ⊢
        have hlen2 : ((id0 :: rest).drop SEARCH_BATCH_SIZE).length ≤ n := by
          rw [List.length_drop]
          simp only [List.length_cons] at hlen ⊢
          simp [SEARCH_BATCH_SIZE]
          omega
        obtain ⟨g1, g2⟩ := ih ((id0 :: rest).drop SEARCH_BATCH_SIZE) sc2 hlen2 b2
        cases hgo : searchBatchesGo env pq ((id0 :: rest).drop SEARCH_BATCH_SIZE) sc2 with
        | mk matchedRest sc3 =>
          rw [hgo] at g1 g2
          dsimp only [] at g1 g2 ⊢
          refine ⟨?_, g2⟩
          rw [b1, g1, ← List.filter_append, List.take_append_drop]

theorem parseFloatJS_two : parseFloatJS "2" = .fin 2 := by
  have h1 : parseFloatJS "2"
      = .fin ((digitsToNat ['2'] : ℚ)
          + (digitsToNat ([] : List Char) : ℚ) / (10 : ℚ) ^ ([] : List Char).length) := rfl
  have h2 : digitsToNat ['2'] = 2 := rfl
  have h3 : digitsToNat ([] : List Char) = 0 := rfl
  rw [h1, h2, h3]
  norm_num

theorem mapMatchesSearch_star2 (m : SoundSpaceMemoryMap) :
    mapMatchesSearch m ⟨[⟨"star", ">", "2"⟩], ""⟩ = decide ((2 : ℚ) < m.starRating) := by
  simp [mapMatchesSearch, evaluateFilter, getMapValueByField, fieldMapLookup, mapIndex,
    jsValToNumber, parseFloatJS_two, jsNumLt]

theorem jsNumLt_nan_left (a : JsNum) : jsNumLt .nan a = false := by cases a <;> rfl

theorem jsNumLt_nan_right (a : JsNum) : jsNumLt a .nan = false := by cases a <;> rfl

theorem recordForSearch_none_of_error (env : SearchEnv) (mapId : String)
    (hc : ∀ r, env.mapCache mapId ≠ some (some r))
    (hs : env.mapStorage mapId = .error ()) : recordForSearch env mapId = none := by
  rw [recordForSearch]
  cases hcm : env.mapCache mapId with
  | some v =>
    cases v with
    | some r => exact absurd hcm (hc r)
    | none => rw [hs]
  | none => rw [hs]

/-- C8: (i) `search(ids, "STAR>2")` returns exactly the ids whose resolvable
record has `starRating > 2` (an unresolvable id — no cached record and no
stored record — is excluded); (ii) `=` does case-insensitive string equality
on textual attribute values; (iii) on every non-string attribute value `=`
falls back to loose equality against the filter string; (iv) `>`/`<` coerce
the filter value with `parseFloat`, so a non-numeric operand compares as NaN
and matches nothing. -/
theorem star_filter_returns_exactly_ids_above_two :
    (∀ (env : SearchEnv) (ids : List String) (sc : SearchCache),
      SearchCacheCoherent env sc →
      (searchAllMaps env ids "STAR>2" sc).1
        = ids.filter (fun mapId =>
            ((recordForSearch env mapId).map
              (fun m => decide ((2 : ℚ) < m.starRating))).getD false)) ∧
    (∀ s v, evaluateFilter (.vStr s) "=" v = (jsToLower s == jsToLower v)) ∧
    (∀ x v, (∀ s, x ≠ .vStr s) → evaluateFilter x "=" v = jsLooseEqString x v) ∧
    (∀ x v, parseFloatJS v = .nan →
      evaluateFilter x ">" v = false ∧ evaluateFilter x "<" v = false) := by
  refine ⟨?_, ?_, ?_, ?_⟩
  · intro env ids sc hco
    rw [searchAllMaps, if_neg (by decide)]
    have hpq : parseSearchQuery "STAR>2" = ⟨[⟨"star", ">", "2"⟩], ""⟩ := rfl
    rw [hpq]
    obtain ⟨g1, _⟩ := searchBatchesGo_characterization env ⟨[⟨"star", ">", "2"⟩], ""⟩
      ids.length ids sc le_rfl hco
    rw [g1]
    apply List.filter_congr
    intro mapId _
    rw [searchPred]
    cases recordForSearch env mapId with
    | none => rfl
    | some m => simp [mapMatchesSearch_star2]
  · intro s v
    rfl
  · intro x v hx
    cases x with
    | vStr s => exact absurd rfl (hx s)
    | vNum q => rfl
    | vStrList xs => rfl
    | vNotes notes => rfl
    | vUndefined => rfl
  · intro x v hv
    refine ⟨?_, ?_⟩ <;> cases x <;>
      simp [evaluateFilter, jsValToNumber, hv, jsNumLt_nan_left, jsNumLt_nan_right]

/-- Closed witness for the C8 theorem's hypotheses at a concrete search
environment (empty caches, one stored record with star rating 3). -/
theorem star_filter_returns_exactly_ids_above_two_witness :
    (searchAllMaps
        ⟨fun _ => none,
          fun mapId => if mapId = "a"
            then .ok (some ⟨"a", [], "t", 0, 0, 0, 3, "UNRANKED", []⟩) else .ok none⟩
        ["a", "b"] "STAR>2" (fun _ => none)).1
      = ["a", "b"].filter (fun mapId =>
          ((recordForSearch
              ⟨fun _ => none,
                fun mapId => if mapId = "a"
                  then .ok (some ⟨"a", [], "t", 0, 0, 0, 3, "UNRANKED", []⟩) else .ok none⟩
              mapId).map (fun m => decide ((2 : ℚ) < m.starRating))).getD false) :=
  star_filter_returns_exactly_ids_above_two.1
    ⟨fun _ => none,
      fun mapId => if mapId = "a"
        then .ok (some ⟨"a", [], "t", 0, 0, 0, 3, "UNRANKED", []⟩) else .ok none⟩
    ["a", "b"] (fun _ => none) (fun mapId m h => nomatch h)

/-- C9: a search over all ids completes with a per-id characterization: the
result is exactly the ids whose (cache-or-store) record resolves and matches;
coherence of the search cache is preserved; and an id whose store read throws
(with no cached record) is excluded from the result — only that id, since
every other id's membership is decided by its own record alone. -/
theorem store_read_error_excludes_only_that_id
    (env : SearchEnv) (ids : List String) (query : String) (sc : SearchCache)
    (hq : query ≠ "") (hco : SearchCacheCoherent env sc) :
    (searchAllMaps env ids query sc).1
        = ids.filter (searchPred env (parseSearchQuery query)) ∧
    SearchCacheCoherent env (searchAllMaps env ids query sc).2 ∧
    ∀ badId, (∀ r, env.mapCache badId ≠ some (some r)) →
      env.mapStorage badId = .error () →
      badId ∉ (searchAllMaps env ids query sc).1 := by
  have hgo := searchBatchesGo_characterization env (parseSearchQuery query)
    ids.length ids sc le_rfl hco
  rw [searchAllMaps, if_neg hq]
  refine ⟨hgo.1, hgo.2, ?_⟩
  intro badId hc hs hmem
  rw [hgo.1] at hmem
  have hpred := List.of_mem_filter hmem
  rw [searchPred, recordForSearch_none_of_error env badId hc hs] at hpred
  simp at hpred

/-- Closed witness for the C9 theorem: a two-id corpus where the store read
for `"bad"` throws; the search completes and excludes only `"bad"`. -/
theorem store_read_error_excludes_only_that_id_witness :
    (searchAllMaps
        ⟨fun _ => none,
          fun mapId => if mapId = "bad" then .error ()
            else .ok (some ⟨"g", [], "t", 0, 0, 0, 3, "UNRANKED", []⟩)⟩
        ["g", "bad"] "STAR>2" (fun _ => none)).1
      = ["g", "bad"].filter
          (searchPred
            ⟨fun _ => none,
              fun mapId => if mapId = "bad" then .error ()
                else .ok (some ⟨"g", [], "t", 0, 0, 0, 3, "UNRANKED", []⟩)⟩
            (parseSearchQuery "STAR>2")) :=
  (store_read_error_excludes_only_that_id
    ⟨fun _ => none,
      fun mapId => if mapId = "bad" then .error ()
        else .ok (some ⟨"g", [], "t", 0, 0, 0, 3, "UNRANKED", []⟩)⟩
    ["g", "bad"] "STAR>2" (fun _ => none) (by decide) (fun mapId m h => nomatch h)).1

end Rhythia
